import Mathlib

/-!
AST nodes, variables and variable proxies (`C++/AST/AST.cpp`).

A shallow embedding of the node header, the node-kind enumeration, `Variable`,
`VariableProxy` and the binding operation, followed by the properties proved about them.

Conventions of the embedding.
* Pointers are machine words (`Nat`); a nullable pointer is an `Option`.
* Objects reached through a `Variable*` live in a `Heap`, a partial map from addresses to
  `Variable` records.  Member functions that write through a pointer take and return the heap.
* `bit_field_` is a natural number; the unsigned width of the C++ member (32 bits for
  `AstNode`, 16 bits for `Variable`) is explicit in every bit-field operation.
* `DCHECK`s are modelled as enabled: a failing check stops the member function.
-/

/-- Modelled from the spec: the `BitField<T, shift, size, U>` template is used by the file but
not defined in it.  The spec describes a bit-packed field block in which every field occupies a
declared range of bits; a field is its first bit and its number of bits. -/
structure BitField where
  shift : Nat
  size : Nat
deriving DecidableEq, Repr

namespace BitField

/-- Modelled from the spec: `kMask`, the bits `shift .. shift + size - 1` of a `w`-bit word,
computed as `((1 << shift) << size) - (1 << shift)` in `w`-bit unsigned arithmetic. -/
def kMask (w : Nat) (f : BitField) : Nat :=
  (((1 <<< f.shift) <<< f.size) - (1 <<< f.shift)) % 2 ^ w

/-- Modelled from the spec: `kNext`, the first bit after the field, where the next field of a
layered block starts. -/
def kNext (f : BitField) : Nat := f.shift + f.size

/-- Modelled from the spec: `encode(value)`, the value moved to the field's position,
`value << shift` in `w`-bit unsigned arithmetic. -/
def encode (w : Nat) (f : BitField) (value : Nat) : Nat :=
  (value <<< f.shift) % 2 ^ w

/-- Modelled from the spec: `update(previous, value)`, the word `previous` with the field
replaced by `value`: `(previous & ~kMask) | encode(value)`. -/
def update (w : Nat) (f : BitField) (previous value : Nat) : Nat :=
  (previous &&& ((2 ^ w - 1) ^^^ f.kMask w)) ||| f.encode w value

/-- Modelled from the spec: `decode(value)`, the content of the field:
`(value & kMask) >> shift`. -/
def decode (w : Nat) (f : BitField) (value : Nat) : Nat :=
  (value &&& f.kMask w) >>> f.shift

/-- The field lies inside a `w`-bit word. -/
def fits (w : Nat) (f : BitField) : Prop := f.shift + f.size ≤ w

instance (w : Nat) (f : BitField) : Decidable (f.fits w) := by
  unfold fits; infer_instance

/-- Two fields share no bit. -/
def disjoint (f g : BitField) : Prop := f.kNext ≤ g.shift ∨ g.kNext ≤ f.shift

instance (f g : BitField) : Decidable (f.disjoint g) := by
  unfold disjoint; infer_instance

end BitField

/-- The value a C++ `bool` has when converted to an unsigned integer. -/
def boolToNat (b : Bool) : Nat := if b then 1 else 0

/-! ## Node kinds -/

/-- The enumerators `k##type` of `AstNode::NodeType`, one for every `V(type)` entry of
`AST_NODE_LIST` and `FAILURE_NODE_LIST`. -/
inductive NodeType where
  | kVariableDeclaration | kFunctionDeclaration
  | kDoWhileStatement | kWhileStatement | kForStatement | kForInStatement | kForOfStatement
  | kBlock | kSwitchStatement
  | kExpressionStatement | kEmptyStatement | kSloppyBlockFunctionStatement | kIfStatement
  | kContinueStatement | kBreakStatement | kReturnStatement | kWithStatement
  | kTryCatchStatement | kTryFinallyStatement | kDebuggerStatement
  | kInitializeClassMembersStatement
  | kRegExpLiteral | kObjectLiteral | kArrayLiteral
  | kAssignment | kAwait | kBinaryOperation | kNaryOperation | kCall | kCallNew
  | kCallRuntime | kClassLiteral | kCompareOperation | kCompoundAssignment | kConditional
  | kCountOperation | kDoExpression | kEmptyParentheses | kFunctionLiteral
  | kGetTemplateObject | kImportCallExpression | kLiteral | kNativeFunctionLiteral
  | kProperty | kResolvedProperty | kSpread | kStoreInArrayLiteral | kSuperCallReference
  | kSuperPropertyReference | kTemplateLiteral | kThisExpression | kThrow
  | kUnaryOperation | kVariableProxy | kYield | kYieldStar
  | kFailureExpression
deriving DecidableEq, Repr

open NodeType in
/-- The macro `DECLARATION_NODE_LIST`. -/
def DECLARATION_NODE_LIST : List NodeType := [kVariableDeclaration, kFunctionDeclaration]

open NodeType in
/-- The macro `ITERATION_NODE_LIST`. -/
def ITERATION_NODE_LIST : List NodeType :=
  [kDoWhileStatement, kWhileStatement, kForStatement, kForInStatement, kForOfStatement]

open NodeType in
/-- The macro `BREAKABLE_NODE_LIST`. -/
def BREAKABLE_NODE_LIST : List NodeType := [kBlock, kSwitchStatement]

open NodeType in
/-- The macro `STATEMENT_NODE_LIST`. -/
def STATEMENT_NODE_LIST : List NodeType :=
  ITERATION_NODE_LIST ++ BREAKABLE_NODE_LIST ++
  [kExpressionStatement, kEmptyStatement, kSloppyBlockFunctionStatement, kIfStatement,
   kContinueStatement, kBreakStatement, kReturnStatement, kWithStatement, kTryCatchStatement,
   kTryFinallyStatement, kDebuggerStatement, kInitializeClassMembersStatement]

open NodeType in
/-- The macro `LITERAL_NODE_LIST`. -/
def LITERAL_NODE_LIST : List NodeType := [kRegExpLiteral, kObjectLiteral, kArrayLiteral]

open NodeType in
/-- The macro `EXPRESSION_NODE_LIST`. -/
def EXPRESSION_NODE_LIST : List NodeType :=
  LITERAL_NODE_LIST ++
  [kAssignment, kAwait, kBinaryOperation, kNaryOperation, kCall, kCallNew, kCallRuntime,
   kClassLiteral, kCompareOperation, kCompoundAssignment, kConditional, kCountOperation,
   kDoExpression, kEmptyParentheses, kFunctionLiteral, kGetTemplateObject,
   kImportCallExpression, kLiteral, kNativeFunctionLiteral, kProperty, kResolvedProperty,
   kSpread, kStoreInArrayLiteral, kSuperCallReference, kSuperPropertyReference,
   kTemplateLiteral, kThisExpression, kThrow, kUnaryOperation, kVariableProxy, kYield,
   kYieldStar]

open NodeType in
/-- The macro `FAILURE_NODE_LIST`. -/
def FAILURE_NODE_LIST : List NodeType := [kFailureExpression]

/-- The macro `AST_NODE_LIST`. -/
def AST_NODE_LIST : List NodeType :=
  DECLARATION_NODE_LIST ++ STATEMENT_NODE_LIST ++ EXPRESSION_NODE_LIST

/-- The enumerators in the order `enum NodeType` lists them:
`AST_NODE_LIST(DECLARE_TYPE_ENUM) FAILURE_NODE_LIST(DECLARE_TYPE_ENUM)`. -/
def NodeType.enumerators : List NodeType := AST_NODE_LIST ++ FAILURE_NODE_LIST

/-- The integer value of an enumerator: its position in the `enum`, counted from 0. -/
def NodeType.value (t : NodeType) : Nat := NodeType.enumerators.indexOf t

/-! ## Declarations the file relies on -/

/-- The declarations the file uses without containing them: the bit ranges of the flag fields
of `VariableProxy` (in the 32-bit `AstNode::bit_field_`) and of `Variable` (in its 16-bit
`bit_field_`), and the integer values of the enumerators and constants it names.  Everything
below is parametrised by them. -/
structure Decls where
  IsAssignedField : BitField
  IsResolvedField : BitField
  IsRemovedFromUnresolvedField : BitField
  HoleCheckModeField : BitField
  MaybeAssignedFlagField : BitField
  InitializationFlagField : BitField
  VariableModeField : BitField
  IsUsedField : BitField
  ForceContextAllocationField : BitField
  ForceHoleInitializationField : BitField
  LocationField : BitField
  VariableKindField : BitField
  /-- The value of `VariableMode::kVar`. -/
  kVar : Nat
  /-- The value of `VariableLocation::UNALLOCATED`. -/
  UNALLOCATED : Nat
  /-- The value of `HoleCheckMode::kElided`. -/
  kElided : Nat
  /-- The value of `kNotAssigned`. -/
  kNotAssigned : Nat
  /-- The value of `kMaybeAssigned`. -/
  kMaybeAssigned : Nat
  /-- The value of `kNoSourcePosition`. -/
  kNoSourcePosition : Int

/-- `class NodeTypeField : public BitField<NodeType, 0, 6> {}`. -/
def NodeTypeField : BitField := ⟨0, 6⟩

/-- `AstNode::kNextBitFieldIndex = NodeTypeField::kNext`; `Expression` and `Declaration`
inherit it unchanged. -/
def AstNode.kNextBitFieldIndex : Nat := NodeTypeField.kNext

/-- The fields stored in the `bit_field_` of a `VariableProxy`, kind tag first. -/
def Decls.proxyFields (c : Decls) : List BitField :=
  [NodeTypeField, c.IsAssignedField, c.IsResolvedField, c.IsRemovedFromUnresolvedField,
   c.HoleCheckModeField]

/-- The fields stored in the `bit_field_` of a `Variable`. -/
def Decls.variableFields (c : Decls) : List BitField :=
  [c.MaybeAssignedFlagField, c.InitializationFlagField, c.VariableModeField, c.IsUsedField,
   c.ForceContextAllocationField, c.ForceHoleInitializationField, c.LocationField,
   c.VariableKindField]

/-- The fields that hold a `bool` or the two-valued `InitializationFlag`. -/
def Decls.flagFields (c : Decls) : List BitField :=
  [c.IsAssignedField, c.IsResolvedField, c.IsRemovedFromUnresolvedField,
   c.InitializationFlagField, c.IsUsedField, c.ForceContextAllocationField,
   c.ForceHoleInitializationField]

/-- The layering discipline of the field blocks: within one `bit_field_` every field lies
inside the word and no two fields share a bit, a flag field has at least one bit, and every
named enumerator fits the field that stores it. -/
def Decls.WF (c : Decls) : Prop :=
  (∀ f ∈ c.proxyFields, f.fits 32) ∧ c.proxyFields.Pairwise BitField.disjoint ∧
  (∀ f ∈ c.variableFields, f.fits 16) ∧ c.variableFields.Pairwise BitField.disjoint ∧
  (∀ f ∈ c.flagFields, 1 ≤ f.size) ∧
  c.kNotAssigned < 2 ^ c.MaybeAssignedFlagField.size ∧
  c.kMaybeAssigned < 2 ^ c.MaybeAssignedFlagField.size ∧
  c.kNotAssigned ≠ c.kMaybeAssigned ∧
  c.kVar < 2 ^ c.VariableModeField.size ∧
  c.UNALLOCATED < 2 ^ c.LocationField.size ∧
  c.kElided < 2 ^ c.HoleCheckModeField.size

instance (c : Decls) : Decidable c.WF := by
  unfold Decls.WF; infer_instance

/-- One admissible set of declarations: each subclass field starts at the `kNext` of the field
before it, the proxy flags right after the kind tag. -/
def sampleDecls : Decls where
  IsAssignedField := ⟨6, 1⟩
  IsResolvedField := ⟨7, 1⟩
  IsRemovedFromUnresolvedField := ⟨8, 1⟩
  HoleCheckModeField := ⟨9, 1⟩
  VariableModeField := ⟨0, 3⟩
  VariableKindField := ⟨3, 3⟩
  LocationField := ⟨6, 3⟩
  ForceContextAllocationField := ⟨9, 1⟩
  IsUsedField := ⟨10, 1⟩
  InitializationFlagField := ⟨11, 1⟩
  ForceHoleInitializationField := ⟨12, 1⟩
  MaybeAssignedFlagField := ⟨13, 1⟩
  kVar := 2
  UNALLOCATED := 0
  kElided := 1
  kNotAssigned := 0
  kMaybeAssigned := 1
  kNoSourcePosition := -1

/-! ## Outcomes -/

/-- How a member function ended. -/
inductive Status where
  /-- It ran to its end. -/
  | done
  /-- A `DCHECK` failed. -/
  | dcheck_failed
  /-- It dereferenced an address that holds no `Variable`. -/
  | undefined
deriving DecidableEq, Repr

/-- The result of a member function: how it ended and the state it left (for a failed check or
an invalid dereference, the state at that point). -/
structure Outcome (σ : Type) where
  status : Status
  state : σ

/-! ## The node header -/

/-- The members of `AstNode`. -/
structure AstNode where
  position_ : Int
  bit_field_ : Nat

/-- `AstNode(int position, NodeType type)`. -/
def AstNode.new (position : Int) (type : NodeType) : AstNode :=
  { position_ := position, bit_field_ := NodeTypeField.encode 32 type.value }

/-- Modelled from the spec: `AstNode::node_type()` is called by the type-testing functions but
not defined in the file.  The kind tag is the content of `NodeTypeField`, where the
constructor stores it. -/
def AstNode.node_type (n : AstNode) : Nat := NodeTypeField.decode 32 n.bit_field_

/-- `bool AstNode::Is##type() const`, for the `type` whose enumerator is `t`. -/
def AstNode.Is (t : NodeType) (n : AstNode) : Bool := n.node_type == t.value

/-- `type* AstNode::As##type()`, for the `type` whose enumerator is `t`: the node itself seen
as a `type`, or `none` for `nullptr`. -/
def AstNode.As (t : NodeType) (n : AstNode) : Option AstNode :=
  if n.node_type == t.value then some n else none

/-- The members `Expression` adds to `AstNode`: none. -/
structure Expression extends AstNode

/-- `Expression(int pos, NodeType type)`. -/
def Expression.new (pos : Int) (type : NodeType) : Expression :=
  { toAstNode := AstNode.new pos type }

/-- The members `Declaration` adds to `AstNode`.  The constructor does not initialise `var_`:
`none` stands for the member before its first write. -/
structure Declaration extends AstNode where
  var_ : Option Nat
  next_ : Option Nat

/-- `Declaration(int pos, NodeType type)`. -/
def Declaration.new (pos : Int) (type : NodeType) : Declaration :=
  { toAstNode := AstNode.new pos type, var_ := none, next_ := none }

/-- `Variable* Declaration::var() const`. -/
def Declaration.var (d : Declaration) : Option Nat := d.var_

/-- `void Declaration::set_var(Variable* var)`. -/
def Declaration.set_var (d : Declaration) (var : Nat) : Declaration :=
  { d with var_ := some var }

/-- The members `VariableDeclaration` adds to `Declaration`: none. -/
structure VariableDeclaration extends Declaration

/-- `class IsNestedField : public BitField<bool, Declaration::kNextBitFieldIndex, 1> {}`. -/
def VariableDeclaration.IsNestedField : BitField := ⟨AstNode.kNextBitFieldIndex, 1⟩

/-- `VariableDeclaration(int pos, bool is_nested)`. -/
def VariableDeclaration.new (pos : Int) (is_nested : Bool) : VariableDeclaration :=
  let d := Declaration.new pos NodeType.kVariableDeclaration
  { toDeclaration :=
      { d with bit_field_ :=
          VariableDeclaration.IsNestedField.update 32 d.bit_field_ (boolToNat is_nested) } }

/-- `VariableDeclaration::set_var`, inherited from `Declaration`. -/
def VariableDeclaration.set_var (d : VariableDeclaration) (var : Nat) : VariableDeclaration :=
  { toDeclaration := d.toDeclaration.set_var var }

/-! ## Variables -/

/-- `enum InitializationFlag : uint8_t { kNeedsInitialization, kCreatedInitialized }`. -/
inductive InitializationFlag where
  | kNeedsInitialization
  | kCreatedInitialized
deriving DecidableEq, Repr

/-- The integer value of an `InitializationFlag` enumerator. -/
def InitializationFlag.value : InitializationFlag → Nat
  | kNeedsInitialization => 0
  | kCreatedInitialized => 1

/-- The members of `Variable`.  `scope_` and `name_` are addresses. -/
structure Variable where
  scope_ : Nat
  name_ : Nat
  local_if_not_shadowed_ : Option Nat
  next_ : Option Nat
  index_ : Int
  initializer_position_ : Int
  bit_field_ : Nat
deriving DecidableEq, Repr

/-- The `Variable` constructor.  `mode`, `kind` and `maybe_assigned_flag` are enumerator
values; the caller passes `kNotAssigned` for an omitted last argument.  The members are
initialised first, then the body checks that a `kVar` variable does not need
initialisation. -/
def Variable.new (c : Decls) (scope name mode kind : Nat)
    (initialization_flag : InitializationFlag) (maybe_assigned_flag : Nat) :
    Outcome Variable :=
  let v : Variable :=
    { scope_ := scope
      name_ := name
      local_if_not_shadowed_ := none
      next_ := none
      index_ := -1
      initializer_position_ := c.kNoSourcePosition
      bit_field_ :=
        c.MaybeAssignedFlagField.encode 16 maybe_assigned_flag |||
        c.InitializationFlagField.encode 16 initialization_flag.value |||
        c.VariableModeField.encode 16 mode |||
        c.IsUsedField.encode 16 (boolToNat false) |||
        c.ForceContextAllocationField.encode 16 (boolToNat false) |||
        c.ForceHoleInitializationField.encode 16 (boolToNat false) |||
        c.LocationField.encode 16 c.UNALLOCATED |||
        c.VariableKindField.encode 16 kind }
  if mode = c.kVar ∧ initialization_flag = InitializationFlag.kNeedsInitialization then
    ⟨Status.dcheck_failed, v⟩
  else
    ⟨Status.done, v⟩

/-- Modelled from the spec: `Variable::raw_name()` is called by `BindTo` but not defined in
the file; the spec's "variable's name" is the interned name the constructor stores. -/
def Variable.raw_name (v : Variable) : Nat := v.name_

/-- `bool Variable::is_used()`. -/
def Variable.is_used (c : Decls) (v : Variable) : Bool :=
  c.IsUsedField.decode 16 v.bit_field_ != 0

/-- `void Variable::set_is_used()`. -/
def Variable.set_is_used (c : Decls) (v : Variable) : Variable :=
  { v with bit_field_ := c.IsUsedField.update 16 v.bit_field_ (boolToNat true) }

/-- `MaybeAssignedFlag Variable::maybe_assigned() const`. -/
def Variable.maybe_assigned (c : Decls) (v : Variable) : Nat :=
  c.MaybeAssignedFlagField.decode 16 v.bit_field_

/-- `void Variable::set_maybe_assigned()`. -/
def Variable.set_maybe_assigned (c : Decls) (v : Variable) : Variable :=
  { v with bit_field_ := c.MaybeAssignedFlagField.update 16 v.bit_field_ c.kMaybeAssigned }

/-- `void Variable::set_initializer_position(int pos)`. -/
def Variable.set_initializer_position (v : Variable) (pos : Int) : Variable :=
  { v with initializer_position_ := pos }

/-- The `Variable` objects of the zone, by address. -/
abbrev Heap := Nat → Option Variable

/-- The heap after the object at address `a` has been replaced by `v`. -/
def Heap.store (h : Heap) (a : Nat) (v : Variable) : Heap :=
  fun b => if b = a then some v else h b

/-! ## Variable proxies -/

/-- The anonymous union of `VariableProxy`: one word, written last either as `raw_name_` or as
`var_`. -/
inductive Slot where
  | raw_name_ (name : Nat)
  | var_ (v : Nat)
deriving DecidableEq, Repr

/-- The word in the union, whichever member wrote it. -/
def Slot.word : Slot → Nat
  | raw_name_ name => name
  | var_ v => v

/-- The members `VariableProxy` adds to `Expression`. -/
structure VariableProxy extends Expression where
  next_unresolved_ : Option Nat
  slot : Slot

/-- `InitializationFlag VariableProxy::DefaultInitializationFlag(VariableMode mode)`. -/
def VariableProxy.DefaultInitializationFlag (c : Decls) (mode : Nat) : InitializationFlag :=
  if mode = c.kVar then InitializationFlag.kCreatedInitialized
  else InitializationFlag.kNeedsInitialization

/-- `VariableProxy(const AstRawString* name, VariableKind variable_kind, int start_position)`.
The constructor does not use `variable_kind`. -/
def VariableProxy.new (c : Decls) (name : Nat) (variable_kind : Nat) (start_position : Int) :
    VariableProxy :=
  let e := Expression.new start_position NodeType.kVariableProxy
  { toExpression :=
      { e with bit_field_ :=
          e.bit_field_ |||
            (c.IsAssignedField.encode 32 (boolToNat false) |||
             c.IsResolvedField.encode 32 (boolToNat false) |||
             c.IsRemovedFromUnresolvedField.encode 32 (boolToNat false) |||
             c.HoleCheckModeField.encode 32 c.kElided) }
    next_unresolved_ := none
    slot := Slot.raw_name_ name }

/-- `AstNodeFactory::NewVariableProxy`: the proxy the constructor builds (the zone only
provides the storage). -/
def AstNodeFactory.NewVariableProxy (c : Decls) (name : Nat) (variable_kind : Nat)
    (start_position : Int) : VariableProxy :=
  VariableProxy.new c name variable_kind start_position

/-- `AstNodeFactory::NewVariableDeclaration`: `is_nested` takes its default, `false`. -/
def AstNodeFactory.NewVariableDeclaration (pos : Int) : VariableDeclaration :=
  VariableDeclaration.new pos false

/-- `Variable* VariableProxy::var() const`: the union read as `var_`. -/
def VariableProxy.var (p : VariableProxy) : Nat := p.slot.word

/-- `void VariableProxy::set_var(Variable* v)`. -/
def VariableProxy.set_var (p : VariableProxy) (v : Nat) : VariableProxy :=
  { p with slot := Slot.var_ v }

/-- `void VariableProxy::set_is_resolved()` (the definition inside `class VariableProxy`). -/
def VariableProxy.set_is_resolved (c : Decls) (p : VariableProxy) : VariableProxy :=
  { p with bit_field_ := c.IsResolvedField.update 32 p.bit_field_ (boolToNat true) }

/-- `bool VariableProxy::is_assigned() const` (the definition inside `class VariableProxy`). -/
def VariableProxy.is_assigned (c : Decls) (p : VariableProxy) : Bool :=
  c.IsAssignedField.decode 32 p.bit_field_ != 0

/-!
The four member functions `is_assigned`, `set_is_assigned`, `is_resolved` and
`set_is_resolved` that the file places in the body of `class Variable` read and write
`IsAssignedField` and `IsResolvedField` and call `var()`.  Only `VariableProxy` has these
fields and `var()`, so their receiver is embedded as a `VariableProxy`; they keep the name of
the place where the file defines them.
-/

/-- `bool is_assigned() const` (the definition in the body of `class Variable`). -/
def Variable.is_assigned (c : Decls) (p : VariableProxy) : Bool :=
  c.IsAssignedField.decode 32 p.bit_field_ != 0

/-- `bool is_resolved() const` (the definition in the body of `class Variable`). -/
def Variable.is_resolved (c : Decls) (p : VariableProxy) : Bool :=
  c.IsResolvedField.decode 32 p.bit_field_ != 0

/-- `void set_is_resolved()` (the definition in the body of `class Variable`). -/
def Variable.set_is_resolved (c : Decls) (p : VariableProxy) : VariableProxy :=
  { p with bit_field_ := c.IsResolvedField.update 32 p.bit_field_ (boolToNat true) }

/-- `void set_is_assigned()` (the definition in the body of `class Variable`): set the flag,
then, if the proxy is resolved, `var()->set_maybe_assigned()`. -/
def Variable.set_is_assigned (c : Decls) (p : VariableProxy) (h : Heap) :
    Outcome (VariableProxy × Heap) :=
  let p1 : VariableProxy :=
    { p with bit_field_ := c.IsAssignedField.update 32 p.bit_field_ (boolToNat true) }
  if Variable.is_resolved c p1 then
    match h p1.var with
    | some v => ⟨Status.done, (p1, h.store p1.var (v.set_maybe_assigned c))⟩
    | none => ⟨Status.undefined, (p1, h)⟩
  else
    ⟨Status.done, (p1, h)⟩

/-- Modelled from the spec: `VariableProxy::raw_name()` is called by `BindTo` but not defined
in the file.  In the spec an unresolved proxy carries the raw name, which is the word in its
slot.  For a resolved proxy the spec names no raw name; this model takes the name of the
variable the slot addresses (`none` when the slot addresses no `Variable`).  The properties
below rest on the unresolved branch, or take the value of `raw_name()` as a hypothesis, or
hold for every way `BindTo` can end. -/
def VariableProxy.raw_name (c : Decls) (p : VariableProxy) (h : Heap) : Option Nat :=
  if Variable.is_resolved c p then (h p.var).map Variable.raw_name else some p.slot.word

/-- `VariableProxy::BindTo(Variable* var)`. -/
def VariableProxy.BindTo (c : Decls) (p : VariableProxy) (var : Nat) (h : Heap) :
    Outcome (VariableProxy × Heap) :=
  match p.raw_name c h, h var with
  | some name, some v =>
    if name = v.raw_name then
      let p1 := p.set_var var
      let p2 := p1.set_is_resolved c
      let v1 := v.set_is_used c
      let h1 := h.store var v1
      if p2.is_assigned c then
        ⟨Status.done, (p2, h1.store var (v1.set_maybe_assigned c))⟩
      else
        ⟨Status.done, (p2, h1)⟩
    else
      ⟨Status.dcheck_failed, (p, h)⟩
  | _, _ => ⟨Status.undefined, (p, h)⟩

/-! ## Calls on a proxy and the heap -/

/-- The mutating member functions of the file that touch a proxy or a variable, as calls on
one proxy `p` and the heap: `p.set_var(v)`, `p.set_is_resolved()` (of `class VariableProxy`),
`p.BindTo(var)`, the `set_is_assigned()` and `set_is_resolved()` defined in the body of
`class Variable`, and `a->set_is_used()`, `a->set_maybe_assigned()` for the variable at
address `a`. -/
inductive Call where
  | set_var (v : Nat)
  | VariableProxy_set_is_resolved
  | BindTo (var : Nat)
  | set_is_assigned
  | set_is_resolved
  | set_is_used (a : Nat)
  | set_maybe_assigned (a : Nat)
deriving DecidableEq, Repr

/-- One call, on the state made of the proxy and the heap. -/
def Call.run (c : Decls) : Call → VariableProxy × Heap → Outcome (VariableProxy × Heap)
  | Call.set_var v, (p, h) => ⟨Status.done, (p.set_var v, h)⟩
  | Call.VariableProxy_set_is_resolved, (p, h) => ⟨Status.done, (p.set_is_resolved c, h)⟩
  | Call.BindTo var, (p, h) => p.BindTo c var h
  | Call.set_is_assigned, (p, h) => Variable.set_is_assigned c p h
  | Call.set_is_resolved, (p, h) => ⟨Status.done, (Variable.set_is_resolved c p, h)⟩
  | Call.set_is_used a, (p, h) =>
    match h a with
    | some v => ⟨Status.done, (p, h.store a (v.set_is_used c))⟩
    | none => ⟨Status.undefined, (p, h)⟩
  | Call.set_maybe_assigned a, (p, h) =>
    match h a with
    | some v => ⟨Status.done, (p, h.store a (v.set_maybe_assigned c))⟩
    | none => ⟨Status.undefined, (p, h)⟩

/-- A sequence of calls, one after the other; it stops at the first call that does not run to
its end. -/
def runCalls (c : Decls) : List Call → VariableProxy × Heap → Outcome (VariableProxy × Heap)
  | [], s => ⟨Status.done, s⟩
  | k :: ks, s =>
    if (k.run c s).status = Status.done then runCalls c ks (k.run c s).state
    else k.run c s

/-- Whether the union was written last as `var_`, that is, holds a bound variable. -/
def Slot.holds_var : Slot → Bool
  | Slot.raw_name_ _ => false
  | Slot.var_ _ => true

/-- The `Variable` constructor called without its last argument: `maybe_assigned_flag` takes
its default, `kNotAssigned`. -/
def Variable.new_default (c : Decls) (scope name mode kind : Nat)
    (initialization_flag : InitializationFlag) : Outcome Variable :=
  Variable.new c scope name mode kind initialization_flag c.kNotAssigned

/-! ## The declaration list -/

/-- The `Declaration` objects of the zone, by address. -/
abbrev DeclHeap := Nat → Option Declaration

/-- The declaration heap after the object at address `a` has been replaced by `d`. -/
def DeclHeap.store (m : DeclHeap) (a : Nat) (d : Declaration) : DeclHeap :=
  fun b => if b = a then some d else m b

/-- `Declaration** Declaration::next()` written through by the list: the declaration with its
`next_` link set to `v`. -/
def Declaration.link (d : Declaration) (v : Nat) : Declaration :=
  { d with next_ := some v }

/-- Modelled from the spec: `base::ThreadedList<Declaration>`, which `Declaration::List` names
but the file does not define.  The spec's list is intrusive (the "next" pointer lives inside
the declaration, no container is allocated) and tail-tracked: `head_` is the address of the
first declaration and `tail_` the address of the last one, both `none` while the list is
empty. -/
structure ThreadedList where
  head_ : Option Nat
  tail_ : Option Nat
deriving DecidableEq, Repr

/-- Modelled from the spec: the empty list a scope starts with. -/
def ThreadedList.empty : ThreadedList := { head_ := none, tail_ := none }

/-- Modelled from the spec: `append(decl)` adds the declaration at address `v` to the end of
the list in constant time: the link of the tracked tail (the head of an empty list) is set to
`v`, and `v` becomes the tail. -/
def ThreadedList.append (l : ThreadedList) (m : DeclHeap) (v : Nat) :
    ThreadedList × DeclHeap :=
  match l.tail_ with
  | none => ({ head_ := some v, tail_ := some v }, m)
  | some t =>
    match m t with
    | some d => ({ l with tail_ := some v }, m.store t (d.link v))
    | none => (l, m)

/-- A sequence of declarations appended to the empty list, in order. -/
def ThreadedList.appendAll (m : DeclHeap) (vs : List Nat) : ThreadedList × DeclHeap :=
  vs.foldl (fun s v => s.1.append s.2 v) (ThreadedList.empty, m)

/-- Modelled from the spec: `for_each`, the single pass over the list: the addresses met by
following the `next_` links from `cur` until a null link.  `none` when `fuel` links were not
enough or a link leads to no declaration. -/
def ThreadedList.for_each (m : DeclHeap) : Nat → Option Nat → Option (List Nat)
  | _, none => some []
  | 0, some _ => none
  | fuel + 1, some a =>
    match m a with
    | some d => (ThreadedList.for_each m fuel d.next_).map (fun rest => a :: rest)
    | none => none

/-! ## Sample data -/

/-- A variable named `7` of mode `kVar`. -/
def sampleVar : Variable :=
  (Variable.new sampleDecls 0 7 2 0 InitializationFlag.kCreatedInitialized 0).state

/-- A second variable named `7`, of another mode. -/
def sampleVar2 : Variable :=
  (Variable.new sampleDecls 0 7 0 0 InitializationFlag.kNeedsInitialization 0).state

/-- A variable named `9`. -/
def sampleVar3 : Variable :=
  (Variable.new sampleDecls 0 9 0 0 InitializationFlag.kNeedsInitialization 0).state

/-- A heap with `sampleVar` at address `1`, `sampleVar2` at `2` and `sampleVar3` at `3`. -/
def sampleHeap : Heap := fun a =>
  if a = 1 then some sampleVar
  else if a = 2 then some sampleVar2
  else if a = 3 then some sampleVar3
  else none

/-- A fresh proxy for the name `7`. -/
def sampleProxy : VariableProxy := AstNodeFactory.NewVariableProxy sampleDecls 7 0 5


/-- The state `sampleProxy` and `sampleHeap` are in after `sampleProxy` has been bound to the
variable at address `1`. -/
def sampleBound : VariableProxy × Heap := (sampleProxy.BindTo sampleDecls 1 sampleHeap).state

/-- A declaration heap with three freshly constructed declarations, at addresses `10`, `20` and
`30`. -/
def sampleDeclHeap : DeclHeap := fun a =>
  if a = 10 then some (VariableDeclaration.new 1 false).toDeclaration
  else if a = 20 then some (Declaration.new 2 NodeType.kFunctionDeclaration)
  else if a = 30 then some ((VariableDeclaration.new 3 true).set_var 1).toDeclaration
  else none
/-! ## Bit-field lemmas -/

namespace BitField

theorem testBit_kMask (w : Nat) (f : BitField) (h : f.fits w) (i : Nat) :
    (f.kMask w).testBit i = (decide (f.shift ≤ i) && decide (i < f.shift + f.size)) := by
  have e : ((1 <<< f.shift) <<< f.size) - (1 <<< f.shift) = (2 ^ f.size - 1) <<< f.shift := by
    simp only [Nat.shiftLeft_eq, Nat.one_mul]
    rw [Nat.sub_mul, Nat.one_mul, Nat.mul_comm]
  have hlt : (2 ^ f.size - 1) <<< f.shift < 2 ^ w := by
    rw [Nat.shiftLeft_eq]
    have h1 : (2 ^ f.size - 1) * 2 ^ f.shift < 2 ^ f.size * 2 ^ f.shift := by
      apply Nat.mul_lt_mul_of_pos_right
      · have := Nat.two_pow_pos f.size; omega
      · exact Nat.two_pow_pos _
    have h2 : 2 ^ f.size * 2 ^ f.shift ≤ 2 ^ w := by
      rw [← Nat.pow_add]
      apply Nat.pow_le_pow_right (by decide)
      unfold fits at h; omega
    omega
  unfold kMask
  rw [e, Nat.mod_eq_of_lt hlt, Nat.testBit_shiftLeft, Nat.testBit_two_pow_sub_one]
  by_cases h1 : f.shift ≤ i <;> by_cases h2 : i < f.shift + f.size <;> simp [h1, h2] <;> omega

theorem testBit_encode (w : Nat) (f : BitField) (v i : Nat) :
    (f.encode w v).testBit i =
      (decide (i < w) && (decide (f.shift ≤ i) && v.testBit (i - f.shift))) := by
  unfold encode
  rw [Nat.testBit_mod_two_pow, Nat.testBit_shiftLeft]

theorem testBit_update (w : Nat) (f : BitField) (h : f.fits w) (x v i : Nat) :
    (f.update w x v).testBit i =
      ((x.testBit i &&
          (decide (i < w) && !(decide (f.shift ≤ i) && decide (i < f.shift + f.size))))
        || (decide (i < w) && (decide (f.shift ≤ i) && v.testBit (i - f.shift)))) := by
  unfold update
  rw [Nat.testBit_or, Nat.testBit_and, Nat.testBit_xor, Nat.testBit_two_pow_sub_one,
    testBit_kMask w f h, testBit_encode]
  unfold fits at h
  by_cases h1 : i < w
  · simp [h1]
  · have h2 : ¬ i < f.shift + f.size := by omega
    simp [h1, h2]

theorem testBit_decode (w : Nat) (f : BitField) (h : f.fits w) (x j : Nat) :
    (f.decode w x).testBit j = (x.testBit (f.shift + j) && decide (j < f.size)) := by
  unfold decode
  rw [Nat.testBit_shiftRight, Nat.testBit_and, testBit_kMask w f h]
  simp

theorem decode_update (w : Nat) (f : BitField) (h : f.fits w) (x v : Nat) (hv : v < 2 ^ f.size) :
    f.decode w (f.update w x v) = v := by
  apply Nat.eq_of_testBit_eq
  intro j
  rw [testBit_decode w f h, testBit_update w f h]
  unfold fits at h
  by_cases hj : j < f.size
  · have : f.shift + j < w := by omega
    simp [hj, this]
  · have : v.testBit j = false := by
      apply Nat.testBit_lt_two_pow
      exact Nat.lt_of_lt_of_le hv (Nat.pow_le_pow_right (by decide) (by omega))
    simp [hj, this]

theorem decode_update_of_disjoint (w : Nat) (f g : BitField) (hf : f.fits w) (hg : g.fits w)
    (hd : f.disjoint g) (x v : Nat) (hv : v < 2 ^ f.size) :
    g.decode w (f.update w x v) = g.decode w x := by
  apply Nat.eq_of_testBit_eq
  intro j
  rw [testBit_decode w g hg, testBit_decode w g hg, testBit_update w f hf]
  unfold fits at hf hg
  unfold disjoint kNext at hd
  by_cases hj : j < g.size
  · have hw : g.shift + j < w := by omega
    have hnot : ¬ (f.shift ≤ g.shift + j ∧ g.shift + j < f.shift + f.size) := by omega
    by_cases h1 : f.shift ≤ g.shift + j
    · have h2 : ¬ g.shift + j < f.shift + f.size := by omega
      have : v.testBit (g.shift + j - f.shift) = false := by
        apply Nat.testBit_lt_two_pow
        exact Nat.lt_of_lt_of_le hv (Nat.pow_le_pow_right (by decide) (by omega))
      simp [hj, hw, h1, h2, this]
    · simp [hj, hw, h1]
  · simp [hj]

theorem disjoint_symm {f g : BitField} (h : f.disjoint g) : g.disjoint f := by
  unfold disjoint at *
  exact h.symm

theorem decode_zero (w : Nat) (f : BitField) : f.decode w 0 = 0 := by
  simp [decode]

theorem encode_eq_update_zero (w : Nat) (f : BitField) (v : Nat) :
    f.encode w v = f.update w 0 v := by
  simp [update]

theorem encode_zero (w : Nat) (f : BitField) : f.encode w 0 = 0 := by
  simp [encode]

theorem decode_encode (w : Nat) (f : BitField) (h : f.fits w) (v : Nat) (hv : v < 2 ^ f.size) :
    f.decode w (f.encode w v) = v := by
  rw [encode_eq_update_zero, decode_update w f h 0 v hv]

theorem decode_encode_of_disjoint (w : Nat) (f g : BitField) (hf : f.fits w) (hg : g.fits w)
    (hd : f.disjoint g) (v : Nat) (hv : v < 2 ^ f.size) :
    g.decode w (f.encode w v) = 0 := by
  rw [encode_eq_update_zero, decode_update_of_disjoint w f g hf hg hd 0 v hv, decode_zero]

theorem decode_or (w : Nat) (f : BitField) (h : f.fits w) (x y : Nat) :
    f.decode w (x ||| y) = f.decode w x ||| f.decode w y := by
  apply Nat.eq_of_testBit_eq
  intro j
  rw [Nat.testBit_or, testBit_decode w f h, testBit_decode w f h, testBit_decode w f h,
    Nat.testBit_or]
  cases x.testBit (f.shift + j) <;> cases y.testBit (f.shift + j) <;> simp

theorem one_lt_two_pow_size (f : BitField) (h : 1 ≤ f.size) : 1 < 2 ^ f.size := by
  calc 1 < 2 ^ 1 := by decide
    _ ≤ 2 ^ f.size := Nat.pow_le_pow_right (by decide) h

end BitField

theorem boolToNat_true : boolToNat true = 1 := rfl

theorem boolToNat_false : boolToNat false = 0 := rfl

/-! ## What well-formed declarations provide -/

/-- The well-formedness predicate spelled out field by field. -/
theorem Decls.WF.spell {c : Decls} (hc : c.WF) :
    (NodeTypeField.fits 32 ∧ c.IsAssignedField.fits 32 ∧ c.IsResolvedField.fits 32 ∧
      c.IsRemovedFromUnresolvedField.fits 32 ∧ c.HoleCheckModeField.fits 32) ∧
    (NodeTypeField.disjoint c.IsAssignedField ∧ NodeTypeField.disjoint c.IsResolvedField ∧
      NodeTypeField.disjoint c.IsRemovedFromUnresolvedField ∧
      NodeTypeField.disjoint c.HoleCheckModeField) ∧
    (c.IsAssignedField.disjoint c.IsResolvedField ∧
      c.IsAssignedField.disjoint c.HoleCheckModeField ∧
      c.IsResolvedField.disjoint c.HoleCheckModeField) ∧
    (c.MaybeAssignedFlagField.fits 16 ∧ c.IsUsedField.fits 16 ∧
      c.MaybeAssignedFlagField.disjoint c.IsUsedField) ∧
    (1 ≤ c.IsAssignedField.size ∧ 1 ≤ c.IsResolvedField.size ∧ 1 ≤ c.IsUsedField.size) ∧
    c.kMaybeAssigned < 2 ^ c.MaybeAssignedFlagField.size ∧
    c.kElided < 2 ^ c.HoleCheckModeField.size := by
  simp only [Decls.WF, Decls.proxyFields, Decls.variableFields, Decls.flagFields,
    List.pairwise_cons, List.mem_cons, List.mem_singleton, forall_eq_or_imp, forall_eq,
    List.not_mem_nil, List.Pairwise.nil, and_true, IsEmpty.forall_iff, implies_true] at hc
  tauto

/-! ## Flag setters and getters -/

theorem Variable.is_used_set_is_used {c : Decls} (hc : c.WF) (v : Variable) :
    (v.set_is_used c).is_used c = true := by
  obtain ⟨-, -, -, ⟨-, hU, -⟩, ⟨-, -, hs⟩, -, -⟩ := hc.spell
  simp [Variable.is_used, Variable.set_is_used, boolToNat_true,
    BitField.decode_update 16 _ hU _ 1 (BitField.one_lt_two_pow_size _ hs)]

theorem Variable.maybe_assigned_set_maybe_assigned {c : Decls} (hc : c.WF) (v : Variable) :
    (v.set_maybe_assigned c).maybe_assigned c = c.kMaybeAssigned := by
  obtain ⟨-, -, -, ⟨hM, -, -⟩, -, hk, -⟩ := hc.spell
  simp [Variable.maybe_assigned, Variable.set_maybe_assigned,
    BitField.decode_update 16 _ hM _ _ hk]

theorem Variable.is_used_set_maybe_assigned {c : Decls} (hc : c.WF) (v : Variable) :
    (v.set_maybe_assigned c).is_used c = v.is_used c := by
  obtain ⟨-, -, -, ⟨hM, hU, hd⟩, -, hk, -⟩ := hc.spell
  simp [Variable.is_used, Variable.set_maybe_assigned,
    BitField.decode_update_of_disjoint 16 _ _ hM hU hd _ _ hk]

theorem Variable.maybe_assigned_set_is_used {c : Decls} (hc : c.WF) (v : Variable) :
    (v.set_is_used c).maybe_assigned c = v.maybe_assigned c := by
  obtain ⟨-, -, -, ⟨hM, hU, hd⟩, ⟨-, -, hs⟩, -, -⟩ := hc.spell
  simp [Variable.maybe_assigned, Variable.set_is_used, boolToNat_true,
    BitField.decode_update_of_disjoint 16 _ _ hU hM (BitField.disjoint_symm hd) _ 1
      (BitField.one_lt_two_pow_size _ hs)]

theorem VariableProxy.is_resolved_set_is_resolved {c : Decls} (hc : c.WF) (p : VariableProxy) :
    Variable.is_resolved c (p.set_is_resolved c) = true := by
  obtain ⟨⟨-, -, hR, -, -⟩, -, -, -, ⟨-, hs, -⟩, -, -⟩ := hc.spell
  simp [Variable.is_resolved, VariableProxy.set_is_resolved, boolToNat_true,
    BitField.decode_update 32 _ hR _ 1 (BitField.one_lt_two_pow_size _ hs)]

theorem VariableProxy.is_assigned_set_is_resolved {c : Decls} (hc : c.WF) (p : VariableProxy) :
    (p.set_is_resolved c).is_assigned c = p.is_assigned c := by
  obtain ⟨⟨-, hA, hR, -, -⟩, -, ⟨hd, -, -⟩, -, ⟨-, hs, -⟩, -, -⟩ := hc.spell
  simp [VariableProxy.is_assigned, VariableProxy.set_is_resolved, boolToNat_true,
    BitField.decode_update_of_disjoint 32 _ _ hR hA (BitField.disjoint_symm hd) _ 1
      (BitField.one_lt_two_pow_size _ hs)]

theorem VariableProxy.node_type_set_is_resolved {c : Decls} (hc : c.WF) (p : VariableProxy) :
    (p.set_is_resolved c).node_type = p.node_type := by
  obtain ⟨⟨hN, -, hR, -, -⟩, ⟨-, hd, -, -⟩, -, -, ⟨-, hs, -⟩, -, -⟩ := hc.spell
  simp [AstNode.node_type, VariableProxy.set_is_resolved, boolToNat_true,
    BitField.decode_update_of_disjoint 32 _ _ hR hN (BitField.disjoint_symm hd) _ 1
      (BitField.one_lt_two_pow_size _ hs)]

theorem VariableProxy.is_assigned_set_var (c : Decls) (p : VariableProxy) (a : Nat) :
    (p.set_var a).is_assigned c = p.is_assigned c := rfl

theorem Heap.store_same (h : Heap) (a : Nat) (v : Variable) : h.store a v a = some v := by
  simp [Heap.store]

theorem Heap.store_other (h : Heap) (a b : Nat) (v : Variable) (hb : b ≠ a) :
    h.store a v b = h b := by
  simp [Heap.store, hb]

/-- What `BindTo` does once the name check passes. -/
theorem VariableProxy.BindTo_of_name_eq (c : Decls) (p : VariableProxy) (a : Nat) (h : Heap)
    (v : Variable) (hv : h a = some v) (hn : p.raw_name c h = some v.raw_name) :
    p.BindTo c a h =
      ⟨Status.done, ((p.set_var a).set_is_resolved c,
        if ((p.set_var a).set_is_resolved c).is_assigned c then
          (h.store a (v.set_is_used c)).store a ((v.set_is_used c).set_maybe_assigned c)
        else h.store a (v.set_is_used c))⟩ := by
  unfold VariableProxy.BindTo
  rw [hn, hv]
  simp only [if_true]
  split <;> rfl

/-- What `BindTo` does when the name check fails. -/
theorem VariableProxy.BindTo_of_name_ne (c : Decls) (p : VariableProxy) (a : Nat) (h : Heap)
    (v : Variable) (n : Nat) (hv : h a = some v) (hn : p.raw_name c h = some n)
    (hne : n ≠ v.raw_name) :
    p.BindTo c a h = ⟨Status.dcheck_failed, (p, h)⟩ := by
  unfold VariableProxy.BindTo
  rw [hn, hv]
  simp only [if_neg hne]

/-- A freshly constructed proxy has both flags clear and carries the kind tag. -/
theorem VariableProxy.new_flags {c : Decls} (hc : c.WF) (name kind : Nat) (pos : Int) :
    Variable.is_resolved c (VariableProxy.new c name kind pos) = false ∧
    (VariableProxy.new c name kind pos).is_assigned c = false ∧
    (VariableProxy.new c name kind pos).node_type = NodeType.kVariableProxy.value := by
  obtain ⟨⟨hN, hA, hR, -, hH⟩, ⟨hNA, hNR, -, hNH⟩, ⟨-, hAH, hRH⟩, -, -, -, hk⟩ :=
    hc.spell
  have hval : NodeType.kVariableProxy.value < 2 ^ NodeTypeField.size := by decide
  refine ⟨?_, ?_, ?_⟩
  · simp [Variable.is_resolved, VariableProxy.new, Expression.new, AstNode.new, boolToNat_false,
      BitField.encode_zero, BitField.decode_or 32 _ hR,
      BitField.decode_encode_of_disjoint 32 _ _ hN hR hNR _ hval,
      BitField.decode_encode_of_disjoint 32 _ _ hH hR (BitField.disjoint_symm hRH) _ hk]
  · simp [VariableProxy.is_assigned, VariableProxy.new, Expression.new, AstNode.new,
      boolToNat_false,
      BitField.encode_zero, BitField.decode_or 32 _ hA,
      BitField.decode_encode_of_disjoint 32 _ _ hN hA hNA _ hval,
      BitField.decode_encode_of_disjoint 32 _ _ hH hA (BitField.disjoint_symm hAH) _ hk]
  · simp [AstNode.node_type, VariableProxy.new, Expression.new, AstNode.new, boolToNat_false,
      BitField.encode_zero, BitField.decode_or 32 _ hN,
      BitField.decode_encode 32 _ hN _ hval,
      BitField.decode_encode_of_disjoint 32 _ _ hH hN (BitField.disjoint_symm hNH) _ hk]

theorem VariableProxy.raw_name_of_unresolved (c : Decls) (p : VariableProxy) (h : Heap)
    (hp : Variable.is_resolved c p = false) : p.raw_name c h = some p.slot.word := by
  simp [VariableProxy.raw_name, hp]


theorem NodeType.enumerators_get (t : NodeType) : NodeType.enumerators[t.value]? = some t := by
  cases t <;> rfl

theorem NodeType.value_injective (s t : NodeType) (h : s.value = t.value) : s = t := by
  have hs := NodeType.enumerators_get s
  rw [h, NodeType.enumerators_get t] at hs
  exact (Option.some.inj hs).symm

theorem NodeType.value_lt (t : NodeType) : t.value < 2 ^ NodeTypeField.size := by
  cases t <;> decide

theorem AstNode.node_type_new (pos : Int) (t : NodeType) :
    (AstNode.new pos t).node_type = t.value := by
  unfold AstNode.node_type AstNode.new
  exact BitField.decode_encode 32 NodeTypeField (by decide) t.value (NodeType.value_lt t)

theorem Variable.is_assigned_update {c : Decls} (hc : c.WF) (p : VariableProxy) :
    Variable.is_assigned c
      { p with bit_field_ := c.IsAssignedField.update 32 p.bit_field_ (boolToNat true) }
      = true := by
  obtain ⟨⟨-, hA, -, -, -⟩, -, -, -, ⟨hs, -, -⟩, -, -⟩ := hc.spell
  simp [Variable.is_assigned, boolToNat_true,
    BitField.decode_update 32 _ hA _ 1 (BitField.one_lt_two_pow_size _ hs)]

theorem Variable.is_resolved_update_assigned {c : Decls} (hc : c.WF) (p : VariableProxy) :
    Variable.is_resolved c
      { p with bit_field_ := c.IsAssignedField.update 32 p.bit_field_ (boolToNat true) }
      = Variable.is_resolved c p := by
  obtain ⟨⟨-, hA, hR, -, -⟩, -, ⟨hd, -, -⟩, -, ⟨hs, -, -⟩, -, -⟩ := hc.spell
  simp [Variable.is_resolved, boolToNat_true,
    BitField.decode_update_of_disjoint 32 _ _ hA hR hd _ 1 (BitField.one_lt_two_pow_size _ hs)]

theorem Variable.node_type_update_assigned {c : Decls} (hc : c.WF) (p : VariableProxy) :
    AstNode.node_type
      ({ p with bit_field_ := c.IsAssignedField.update 32 p.bit_field_ (boolToNat true) } :
        VariableProxy).toAstNode
      = p.node_type := by
  obtain ⟨⟨hN, hA, -, -, -⟩, ⟨hd, -, -, -⟩, -, -, ⟨hs, -, -⟩, -, -⟩ := hc.spell
  simp [AstNode.node_type, boolToNat_true,
    BitField.decode_update_of_disjoint 32 _ _ hA hN (BitField.disjoint_symm hd) _ 1
      (BitField.one_lt_two_pow_size _ hs)]

/-- Every outcome of `set_is_assigned` carries the proxy with the flag written. -/
theorem Variable.set_is_assigned_proxy (c : Decls) (p : VariableProxy) (h : Heap) :
    (Variable.set_is_assigned c p h).state.1 =
      { p with bit_field_ := c.IsAssignedField.update 32 p.bit_field_ (boolToNat true) } := by
  unfold Variable.set_is_assigned
  simp only []
  split
  · split <;> rfl
  · rfl

/-- A call leaves the kind tag of the proxy as it was. -/
theorem Call.run_node_type {c : Decls} (hc : c.WF) (k : Call) (s : VariableProxy × Heap) :
    (k.run c s).state.1.node_type = s.1.node_type := by
  obtain ⟨p, h⟩ := s
  cases k with
  | set_var v => rfl
  | VariableProxy_set_is_resolved => exact VariableProxy.node_type_set_is_resolved hc p
  | BindTo var =>
    show (p.BindTo c var h).state.1.node_type = p.node_type
    unfold VariableProxy.BindTo
    split
    · split
      · simp only []
        split
        · exact VariableProxy.node_type_set_is_resolved hc _
        · exact VariableProxy.node_type_set_is_resolved hc _
      · rfl
    · rfl
  | set_is_assigned =>
    show (Variable.set_is_assigned c p h).state.1.node_type = p.node_type
    rw [Variable.set_is_assigned_proxy]
    exact Variable.node_type_update_assigned hc p
  | set_is_resolved => exact VariableProxy.node_type_set_is_resolved hc p
  | set_is_used a =>
    simp only [Call.run]
    split <;> rfl
  | set_maybe_assigned a =>
    simp only [Call.run]
    split <;> rfl

theorem runCalls_node_type {c : Decls} (hc : c.WF) (ks : List Call) :
    ∀ s : VariableProxy × Heap, (runCalls c ks s).state.1.node_type = s.1.node_type := by
  induction ks with
  | nil => intro s; rfl
  | cons k ks ih =>
    intro s
    unfold runCalls
    split
    · rw [ih, Call.run_node_type hc]
    · exact Call.run_node_type hc k s

theorem VariableDeclaration.node_type_foldl_set_var (vars : List Nat) :
    ∀ d : VariableDeclaration,
      (vars.foldl VariableDeclaration.set_var d).node_type = d.node_type := by
  induction vars with
  | nil => intro d; rfl
  | cons v vs ih =>
    intro d
    rw [List.foldl_cons, ih]
    rfl

theorem VariableDeclaration.node_type_new_declaration (pos : Int) (is_nested : Bool) :
    (VariableDeclaration.new pos is_nested).node_type
      = NodeType.kVariableDeclaration.value := by
  have hb : boolToNat is_nested < 2 ^ VariableDeclaration.IsNestedField.size := by
    cases is_nested <;> decide
  have h := BitField.decode_update_of_disjoint 32 VariableDeclaration.IsNestedField
    NodeTypeField (by decide) (by decide) (by decide)
    (NodeTypeField.encode 32 NodeType.kVariableDeclaration.value) (boolToNat is_nested) hb
  simp only [AstNode.node_type, VariableDeclaration.new, Declaration.new, AstNode.new]
  rw [h]
  decide

/-- Replacing one object by one that keeps its raised flags keeps the raised flags of every
object of the heap. -/
theorem Heap.store_flags_kept (c : Decls) (h : Heap) (a : Nat) (v v1 : Variable)
    (hv : h a = some v) (hu : v.is_used c = true → v1.is_used c = true)
    (hm : v.maybe_assigned c = c.kMaybeAssigned → v1.maybe_assigned c = c.kMaybeAssigned)
    (x : Nat) (w : Variable) (hw : h x = some w) :
    ∃ w1, h.store a v1 x = some w1 ∧ (w.is_used c = true → w1.is_used c = true) ∧
      (w.maybe_assigned c = c.kMaybeAssigned → w1.maybe_assigned c = c.kMaybeAssigned) := by
  by_cases hx : x = a
  · subst hx
    rw [hv] at hw
    cases hw
    exact ⟨v1, Heap.store_same _ _ _, hu, hm⟩
  · exact ⟨w, by simp [Heap.store, hx, hw], id, id⟩

/-- One successful `BindTo`, summarised. -/
theorem VariableProxy.BindTo_summary {c : Decls} (hc : c.WF) (p : VariableProxy) (a : Nat)
    (h : Heap) (v : Variable) (hv : h a = some v) (hn : p.raw_name c h = some v.raw_name) :
    ∃ p1 h1 v1, p.BindTo c a h = ⟨Status.done, (p1, h1)⟩ ∧ p1.var = a ∧
      Variable.is_resolved c p1 = true ∧ p1.is_assigned c = p.is_assigned c ∧
      h1 a = some v1 ∧ v1.raw_name = v.raw_name ∧ v1.is_used c = true ∧
      (p.is_assigned c = true → v1.maybe_assigned c = c.kMaybeAssigned) ∧
      (v.maybe_assigned c = c.kMaybeAssigned → v1.maybe_assigned c = c.kMaybeAssigned) ∧
      ∀ x, x ≠ a → h1 x = h x := by
  rw [VariableProxy.BindTo_of_name_eq c p a h v hv hn]
  have hA : ((p.set_var a).set_is_resolved c).is_assigned c = p.is_assigned c := by
    rw [VariableProxy.is_assigned_set_is_resolved hc, VariableProxy.is_assigned_set_var]
  rw [hA]
  cases hp : p.is_assigned c
  · refine ⟨_, _, v.set_is_used c, rfl, rfl, VariableProxy.is_resolved_set_is_resolved hc _,
      hA.trans hp, ?_, rfl, Variable.is_used_set_is_used hc v, ?_, ?_, ?_⟩
    · simp [Heap.store]
    · intro hf; cases hf
    · intro hm
      rw [Variable.maybe_assigned_set_is_used hc, hm]
    · intro x hx
      simp [Heap.store, hx]
  · refine ⟨_, _, (v.set_is_used c).set_maybe_assigned c, rfl, rfl,
      VariableProxy.is_resolved_set_is_resolved hc _, hA.trans hp, ?_, rfl, ?_, ?_, ?_, ?_⟩
    · simp [Heap.store]
    · rw [Variable.is_used_set_maybe_assigned hc, Variable.is_used_set_is_used hc]
    · intro _
      exact Variable.maybe_assigned_set_maybe_assigned hc _
    · intro _
      exact Variable.maybe_assigned_set_maybe_assigned hc _
    · intro x hx
      simp [Heap.store, hx]

/-- Two unresolved proxies for the name of `v`, one of them marked assigned, bound to `v` one
after the other. -/
theorem VariableProxy.bind_two {c : Decls} (hc : c.WF) (q1 q2 : VariableProxy) (a : Nat)
    (h : Heap) (v : Variable) (hv : h a = some v)
    (hq1 : Variable.is_resolved c q1 = false) (hq2 : Variable.is_resolved c q2 = false)
    (hw1 : q1.slot.word = v.raw_name) (hw2 : q2.slot.word = v.raw_name)
    (hassigned : q1.is_assigned c = true ∨ q2.is_assigned c = true) :
    ∃ p1 h1 p2 h2 v2, q1.BindTo c a h = ⟨Status.done, (p1, h1)⟩ ∧
      q2.BindTo c a h1 = ⟨Status.done, (p2, h2)⟩ ∧ p1.var = a ∧ p2.var = a ∧
      h2 a = some v2 ∧ v2.is_used c = true ∧ v2.maybe_assigned c = c.kMaybeAssigned := by
  have hn1 : q1.raw_name c h = some v.raw_name := by
    rw [VariableProxy.raw_name_of_unresolved c q1 h hq1, hw1]
  obtain ⟨p1, h1, v1, hb1, hvar1, -, -, hv1, hname1, -, hm1, -, -⟩ :=
    VariableProxy.BindTo_summary hc q1 a h v hv hn1
  have hn2 : q2.raw_name c h1 = some v1.raw_name := by
    rw [VariableProxy.raw_name_of_unresolved c q2 h1 hq2, hw2, hname1]
  obtain ⟨p2, h2, v2, hb2, hvar2, -, -, hv2, -, hu2, hm2, hk2, -⟩ :=
    VariableProxy.BindTo_summary hc q2 a h1 v1 hv1 hn2
  refine ⟨p1, h1, p2, h2, v2, hb1, hb2, hvar1, hvar2, hv2, hu2, ?_⟩
  rcases hassigned with h1a | h2a
  · exact hk2 (hm1 h1a)
  · exact hm2 h2a

/-- On an unresolved proxy `set_is_assigned` writes the flag and nothing else. -/
theorem Variable.set_is_assigned_of_unresolved {c : Decls} (hc : c.WF) (p : VariableProxy)
    (h : Heap) (hp : Variable.is_resolved c p = false) :
    Variable.set_is_assigned c p h = ⟨Status.done,
      ({ p with bit_field_ := c.IsAssignedField.update 32 p.bit_field_ (boolToNat true) },
        h)⟩ := by
  unfold Variable.set_is_assigned
  simp only []
  rw [Variable.is_resolved_update_assigned hc, hp]
  rfl

/-- `BindTo`, however it ends, leaves the resolved flag and the slot in step if they were. -/
theorem VariableProxy.BindTo_keeps_discrimination {c : Decls} (hc : c.WF) (p : VariableProxy)
    (a : Nat) (h : Heap) (hp : Variable.is_resolved c p = p.slot.holds_var) :
    Variable.is_resolved c (p.BindTo c a h).state.1
      = (p.BindTo c a h).state.1.slot.holds_var := by
  unfold VariableProxy.BindTo
  split
  · split
    · simp only []
      split
      · exact VariableProxy.is_resolved_set_is_resolved hc _
      · exact VariableProxy.is_resolved_set_is_resolved hc _
    · exact hp
  · exact hp

theorem runCalls_BindTo_discrimination {c : Decls} (hc : c.WF) (vars : List Nat) :
    ∀ s : VariableProxy × Heap, Variable.is_resolved c s.1 = s.1.slot.holds_var →
      Variable.is_resolved c (runCalls c (vars.map Call.BindTo) s).state.1
        = (runCalls c (vars.map Call.BindTo) s).state.1.slot.holds_var := by
  induction vars with
  | nil => intro s hs; exact hs
  | cons v vs ih =>
    intro s hs
    obtain ⟨p, h⟩ := s
    have hstep := VariableProxy.BindTo_keeps_discrimination hc p v h hs
    simp only [List.map_cons, runCalls]
    split
    · exact ih _ hstep
    · exact hstep

theorem NodeType.value_lt_length (t : NodeType) : t.value < 57 := by
  cases t <;> decide

theorem NodeType.exists_of_lt (n : Nat) (hn : n < 57) : ∃ t : NodeType, t.value = n := by
  have hlen : n < NodeType.enumerators.length := by
    have : NodeType.enumerators.length = 57 := by decide
    omega
  refine ⟨NodeType.enumerators.get ⟨n, hlen⟩, ?_⟩
  have hnodup : NodeType.enumerators.Nodup := by decide
  unfold NodeType.value
  exact List.get_indexOf hnodup ⟨n, hlen⟩ ▸ rfl

theorem VariableDeclaration.is_nested_new (pos : Int) (is_nested : Bool) :
    VariableDeclaration.IsNestedField.decode 32 (VariableDeclaration.new pos is_nested).bit_field_
      = boolToNat is_nested := by
  have hb : boolToNat is_nested < 2 ^ VariableDeclaration.IsNestedField.size := by
    cases is_nested <;> decide
  simp only [VariableDeclaration.new, Declaration.new, AstNode.new]
  exact BitField.decode_update 32 VariableDeclaration.IsNestedField (by decide) _ _ hb

/-- The well-formedness facts about the fields of a `Variable`, spelled out. -/
theorem Decls.WF.spell_variable {c : Decls} (hc : c.WF) :
    (c.MaybeAssignedFlagField.fits 16 ∧ c.InitializationFlagField.fits 16 ∧
      c.VariableModeField.fits 16 ∧ c.IsUsedField.fits 16 ∧
      c.ForceContextAllocationField.fits 16 ∧ c.ForceHoleInitializationField.fits 16 ∧
      c.LocationField.fits 16 ∧ c.VariableKindField.fits 16) ∧
    (c.MaybeAssignedFlagField.disjoint c.InitializationFlagField ∧
      c.MaybeAssignedFlagField.disjoint c.VariableModeField ∧
      c.MaybeAssignedFlagField.disjoint c.IsUsedField ∧
      c.MaybeAssignedFlagField.disjoint c.ForceContextAllocationField ∧
      c.MaybeAssignedFlagField.disjoint c.ForceHoleInitializationField ∧
      c.MaybeAssignedFlagField.disjoint c.LocationField ∧
      c.MaybeAssignedFlagField.disjoint c.VariableKindField) ∧
    (c.InitializationFlagField.disjoint c.VariableModeField ∧
      c.InitializationFlagField.disjoint c.IsUsedField ∧
      c.InitializationFlagField.disjoint c.ForceContextAllocationField ∧
      c.InitializationFlagField.disjoint c.ForceHoleInitializationField ∧
      c.InitializationFlagField.disjoint c.LocationField ∧
      c.InitializationFlagField.disjoint c.VariableKindField) ∧
    (c.VariableModeField.disjoint c.IsUsedField ∧
      c.VariableModeField.disjoint c.ForceContextAllocationField ∧
      c.VariableModeField.disjoint c.ForceHoleInitializationField ∧
      c.VariableModeField.disjoint c.LocationField ∧
      c.VariableModeField.disjoint c.VariableKindField) ∧
    (c.IsUsedField.disjoint c.ForceContextAllocationField ∧
      c.IsUsedField.disjoint c.ForceHoleInitializationField ∧
      c.IsUsedField.disjoint c.LocationField ∧ c.IsUsedField.disjoint c.VariableKindField) ∧
    (c.ForceContextAllocationField.disjoint c.ForceHoleInitializationField ∧
      c.ForceContextAllocationField.disjoint c.LocationField ∧
      c.ForceContextAllocationField.disjoint c.VariableKindField) ∧
    (c.ForceHoleInitializationField.disjoint c.LocationField ∧
      c.ForceHoleInitializationField.disjoint c.VariableKindField) ∧
    c.LocationField.disjoint c.VariableKindField ∧
    (1 ≤ c.InitializationFlagField.size ∧ 1 ≤ c.IsUsedField.size) ∧
    c.kNotAssigned < 2 ^ c.MaybeAssignedFlagField.size ∧
    c.kMaybeAssigned < 2 ^ c.MaybeAssignedFlagField.size ∧
    c.UNALLOCATED < 2 ^ c.LocationField.size := by
  simp only [Decls.WF, Decls.proxyFields, Decls.variableFields, Decls.flagFields,
    List.pairwise_cons, List.mem_cons, List.mem_singleton, forall_eq_or_imp, forall_eq,
    List.not_mem_nil, List.Pairwise.nil, and_true, IsEmpty.forall_iff, implies_true] at hc
  tauto

/-- The well-formedness facts about the fields of a `VariableProxy`, spelled out. -/
theorem Decls.WF.spell_proxy {c : Decls} (hc : c.WF) :
    (NodeTypeField.fits 32 ∧ c.IsAssignedField.fits 32 ∧ c.IsResolvedField.fits 32 ∧
      c.IsRemovedFromUnresolvedField.fits 32 ∧ c.HoleCheckModeField.fits 32) ∧
    (NodeTypeField.disjoint c.IsAssignedField ∧ NodeTypeField.disjoint c.IsResolvedField ∧
      NodeTypeField.disjoint c.IsRemovedFromUnresolvedField ∧
      NodeTypeField.disjoint c.HoleCheckModeField) ∧
    (c.IsAssignedField.disjoint c.IsResolvedField ∧
      c.IsAssignedField.disjoint c.IsRemovedFromUnresolvedField ∧
      c.IsAssignedField.disjoint c.HoleCheckModeField) ∧
    (c.IsResolvedField.disjoint c.IsRemovedFromUnresolvedField ∧
      c.IsResolvedField.disjoint c.HoleCheckModeField) ∧
    c.IsRemovedFromUnresolvedField.disjoint c.HoleCheckModeField ∧
    c.kElided < 2 ^ c.HoleCheckModeField.size := by
  simp only [Decls.WF, Decls.proxyFields, Decls.variableFields, Decls.flagFields,
    List.pairwise_cons, List.mem_cons, List.mem_singleton, forall_eq_or_imp, forall_eq,
    List.not_mem_nil, List.Pairwise.nil, and_true, IsEmpty.forall_iff, implies_true] at hc
  tauto

theorem InitializationFlag.flag_value_lt (f : BitField) (hs : 1 ≤ f.size)
    (i : InitializationFlag) : i.value < 2 ^ f.size := by
  have h1 := BitField.one_lt_two_pow_size f hs
  cases i
  · show 0 < 2 ^ f.size
    omega
  · exact h1

/-- What the fields of a constructed `Variable` decode to. -/
theorem Variable.new_decode {c : Decls} (hc : c.WF) (scope name mode kind : Nat)
    (flag : InitializationFlag) (maf : Nat) (hmode : mode < 2 ^ c.VariableModeField.size)
    (hkind : kind < 2 ^ c.VariableKindField.size)
    (hmaf : maf < 2 ^ c.MaybeAssignedFlagField.size) :
    c.VariableModeField.decode 16 (Variable.new c scope name mode kind flag maf).state.bit_field_
      = mode ∧
    c.VariableKindField.decode 16 (Variable.new c scope name mode kind flag maf).state.bit_field_
      = kind ∧
    c.InitializationFlagField.decode 16
      (Variable.new c scope name mode kind flag maf).state.bit_field_ = flag.value ∧
    c.MaybeAssignedFlagField.decode 16
      (Variable.new c scope name mode kind flag maf).state.bit_field_ = maf ∧
    c.IsUsedField.decode 16 (Variable.new c scope name mode kind flag maf).state.bit_field_
      = 0 ∧
    c.LocationField.decode 16 (Variable.new c scope name mode kind flag maf).state.bit_field_
      = c.UNALLOCATED ∧
    c.ForceContextAllocationField.decode 16
      (Variable.new c scope name mode kind flag maf).state.bit_field_ = 0 ∧
    c.ForceHoleInitializationField.decode 16
      (Variable.new c scope name mode kind flag maf).state.bit_field_ = 0 := by
  obtain ⟨⟨fM, fI, fV, fU, fC, fH, fL, fK⟩, ⟨dMI, dMV, dMU, dMC, dMH, dML, dMK⟩,
    ⟨dIV, dIU, dIC, dIH, dIL, dIK⟩, ⟨dVU, dVC, dVH, dVL, dVK⟩, ⟨dUC, dUH, dUL, dUK⟩,
    ⟨dCH, dCL, dCK⟩, ⟨dHL, dHK⟩, dLK, ⟨sI, -⟩, -, -, hloc⟩ := hc.spell_variable
  have hflag := InitializationFlag.flag_value_lt _ sI flag
  have sMI := BitField.disjoint_symm dMI
  have sMV := BitField.disjoint_symm dMV
  have sMU := BitField.disjoint_symm dMU
  have sMC := BitField.disjoint_symm dMC
  have sMH := BitField.disjoint_symm dMH
  have sML := BitField.disjoint_symm dML
  have sMK := BitField.disjoint_symm dMK
  have sIV := BitField.disjoint_symm dIV
  have sIU := BitField.disjoint_symm dIU
  have sIC := BitField.disjoint_symm dIC
  have sIH := BitField.disjoint_symm dIH
  have sIL := BitField.disjoint_symm dIL
  have sIK := BitField.disjoint_symm dIK
  have sVU := BitField.disjoint_symm dVU
  have sVC := BitField.disjoint_symm dVC
  have sVH := BitField.disjoint_symm dVH
  have sVL := BitField.disjoint_symm dVL
  have sVK := BitField.disjoint_symm dVK
  have sUL := BitField.disjoint_symm dUL
  have sUK := BitField.disjoint_symm dUK
  have sCL := BitField.disjoint_symm dCL
  have sCK := BitField.disjoint_symm dCK
  have sHL := BitField.disjoint_symm dHL
  have sHK := BitField.disjoint_symm dHK
  have sLK := BitField.disjoint_symm dLK
  have state_eq : ∀ st (v : Variable), (if mode = c.kVar ∧
      flag = InitializationFlag.kNeedsInitialization then
        (⟨Status.dcheck_failed, v⟩ : Outcome Variable) else ⟨st, v⟩).state = v := by
    intro st v
    split <;> rfl
  simp only [Variable.new, state_eq, boolToNat_false, BitField.encode_zero, Nat.or_zero]
  refine ⟨?_, ?_, ?_, ?_, ?_, ?_, ?_, ?_⟩
  · rw [BitField.decode_or 16 _ fV, BitField.decode_or 16 _ fV, BitField.decode_or 16 _ fV,
      BitField.decode_or 16 _ fV, BitField.decode_encode 16 _ fV _ hmode,
      BitField.decode_encode_of_disjoint 16 _ _ fM fV dMV _ hmaf,
      BitField.decode_encode_of_disjoint 16 _ _ fI fV dIV _ hflag,
      BitField.decode_encode_of_disjoint 16 _ _ fL fV sVL _ hloc,
      BitField.decode_encode_of_disjoint 16 _ _ fK fV sVK _ hkind]
    simp
  · rw [BitField.decode_or 16 _ fK, BitField.decode_or 16 _ fK, BitField.decode_or 16 _ fK,
      BitField.decode_or 16 _ fK, BitField.decode_encode 16 _ fK _ hkind,
      BitField.decode_encode_of_disjoint 16 _ _ fM fK dMK _ hmaf,
      BitField.decode_encode_of_disjoint 16 _ _ fI fK dIK _ hflag,
      BitField.decode_encode_of_disjoint 16 _ _ fL fK dLK _ hloc,
      BitField.decode_encode_of_disjoint 16 _ _ fV fK dVK _ hmode]
    simp
  · rw [BitField.decode_or 16 _ fI, BitField.decode_or 16 _ fI, BitField.decode_or 16 _ fI,
      BitField.decode_or 16 _ fI, BitField.decode_encode 16 _ fI _ hflag,
      BitField.decode_encode_of_disjoint 16 _ _ fM fI dMI _ hmaf,
      BitField.decode_encode_of_disjoint 16 _ _ fK fI sIK _ hkind,
      BitField.decode_encode_of_disjoint 16 _ _ fL fI sIL _ hloc,
      BitField.decode_encode_of_disjoint 16 _ _ fV fI sIV _ hmode]
    simp
  · rw [BitField.decode_or 16 _ fM, BitField.decode_or 16 _ fM, BitField.decode_or 16 _ fM,
      BitField.decode_or 16 _ fM, BitField.decode_encode 16 _ fM _ hmaf,
      BitField.decode_encode_of_disjoint 16 _ _ fI fM sMI _ hflag,
      BitField.decode_encode_of_disjoint 16 _ _ fK fM sMK _ hkind,
      BitField.decode_encode_of_disjoint 16 _ _ fL fM sML _ hloc,
      BitField.decode_encode_of_disjoint 16 _ _ fV fM sMV _ hmode]
    simp
  · rw [BitField.decode_or 16 _ fU, BitField.decode_or 16 _ fU, BitField.decode_or 16 _ fU,
      BitField.decode_or 16 _ fU,
      BitField.decode_encode_of_disjoint 16 _ _ fM fU dMU _ hmaf,
      BitField.decode_encode_of_disjoint 16 _ _ fI fU dIU _ hflag,
      BitField.decode_encode_of_disjoint 16 _ _ fK fU sUK _ hkind,
      BitField.decode_encode_of_disjoint 16 _ _ fL fU sUL _ hloc,
      BitField.decode_encode_of_disjoint 16 _ _ fV fU dVU _ hmode]
    simp
  · rw [BitField.decode_or 16 _ fL, BitField.decode_or 16 _ fL, BitField.decode_or 16 _ fL,
      BitField.decode_or 16 _ fL, BitField.decode_encode 16 _ fL _ hloc,
      BitField.decode_encode_of_disjoint 16 _ _ fM fL dML _ hmaf,
      BitField.decode_encode_of_disjoint 16 _ _ fI fL dIL _ hflag,
      BitField.decode_encode_of_disjoint 16 _ _ fK fL sLK _ hkind,
      BitField.decode_encode_of_disjoint 16 _ _ fV fL dVL _ hmode]
    simp
  · rw [BitField.decode_or 16 _ fC, BitField.decode_or 16 _ fC, BitField.decode_or 16 _ fC,
      BitField.decode_or 16 _ fC,
      BitField.decode_encode_of_disjoint 16 _ _ fM fC dMC _ hmaf,
      BitField.decode_encode_of_disjoint 16 _ _ fI fC dIC _ hflag,
      BitField.decode_encode_of_disjoint 16 _ _ fK fC sCK _ hkind,
      BitField.decode_encode_of_disjoint 16 _ _ fL fC sCL _ hloc,
      BitField.decode_encode_of_disjoint 16 _ _ fV fC dVC _ hmode]
    simp
  · rw [BitField.decode_or 16 _ fH, BitField.decode_or 16 _ fH, BitField.decode_or 16 _ fH,
      BitField.decode_or 16 _ fH,
      BitField.decode_encode_of_disjoint 16 _ _ fM fH dMH _ hmaf,
      BitField.decode_encode_of_disjoint 16 _ _ fI fH dIH _ hflag,
      BitField.decode_encode_of_disjoint 16 _ _ fK fH sHK _ hkind,
      BitField.decode_encode_of_disjoint 16 _ _ fL fH sHL _ hloc,
      BitField.decode_encode_of_disjoint 16 _ _ fV fH dVH _ hmode]
    simp

/-- The two flags of a fresh proxy that no member function of the file reads. -/
theorem VariableProxy.new_other_flags {c : Decls} (hc : c.WF) (name kind : Nat) (pos : Int) :
    c.IsRemovedFromUnresolvedField.decode 32 (VariableProxy.new c name kind pos).bit_field_
      = 0 ∧
    c.HoleCheckModeField.decode 32 (VariableProxy.new c name kind pos).bit_field_
      = c.kElided := by
  obtain ⟨⟨hN, -, -, hX, hH⟩, ⟨-, -, hNX, hNH⟩, -, -, hXH, hk⟩ := hc.spell_proxy
  have hval : NodeType.kVariableProxy.value < 2 ^ NodeTypeField.size := by decide
  refine ⟨?_, ?_⟩
  · simp [VariableProxy.new, Expression.new, AstNode.new, boolToNat_false,
      BitField.encode_zero, BitField.decode_or 32 _ hX,
      BitField.decode_encode_of_disjoint 32 _ _ hN hX hNX _ hval,
      BitField.decode_encode_of_disjoint 32 _ _ hH hX (BitField.disjoint_symm hXH) _ hk]
  · simp [VariableProxy.new, Expression.new, AstNode.new, boolToNat_false,
      BitField.encode_zero, BitField.decode_or 32 _ hH,
      BitField.decode_encode_of_disjoint 32 _ _ hN hH hNH _ hval,
      BitField.decode_encode 32 _ hH _ hk]

/-- `set_is_used` leaves every field disjoint from `IsUsedField` as it was. -/
theorem Variable.decode_set_is_used {c : Decls} (hc : c.WF) (g : BitField) (hg : g.fits 16)
    (hd : c.IsUsedField.disjoint g) (v : Variable) :
    g.decode 16 (v.set_is_used c).bit_field_ = g.decode 16 v.bit_field_ := by
  obtain ⟨⟨-, -, -, fU, -, -, -, -⟩, -, -, -, -, -, -, -, ⟨-, sU⟩, -, -, -⟩ :=
    hc.spell_variable
  exact BitField.decode_update_of_disjoint 16 _ _ fU hg hd _ 1
    (BitField.one_lt_two_pow_size _ sU)

/-- `set_maybe_assigned` leaves every field disjoint from `MaybeAssignedFlagField` as it
was. -/
theorem Variable.decode_set_maybe_assigned {c : Decls} (hc : c.WF) (g : BitField)
    (hg : g.fits 16) (hd : c.MaybeAssignedFlagField.disjoint g) (v : Variable) :
    g.decode 16 (v.set_maybe_assigned c).bit_field_ = g.decode 16 v.bit_field_ := by
  obtain ⟨⟨fM, -, -, -, -, -, -, -⟩, -, -, -, -, -, -, -, -, -, hk, -⟩ := hc.spell_variable
  exact BitField.decode_update_of_disjoint 16 _ _ fM hg hd _ _ hk

/-- The variable `BindTo` leaves behind differs from the one it found in `IsUsedField` and
`MaybeAssignedFlagField` only. -/
theorem Variable.bound_frame {c : Decls} (hc : c.WF) (v : Variable) (b : Bool) (g : BitField)
    (hg : g.fits 16) (hU : c.IsUsedField.disjoint g)
    (hM : c.MaybeAssignedFlagField.disjoint g) :
    g.decode 16 (if b then (v.set_is_used c).set_maybe_assigned c
      else v.set_is_used c).bit_field_ = g.decode 16 v.bit_field_ := by
  cases b
  · exact Variable.decode_set_is_used hc g hg hU v
  · exact (Variable.decode_set_maybe_assigned hc g hg hM _).trans
      (Variable.decode_set_is_used hc g hg hU v)

/-- `BindTo` with a passing name check, with the object it leaves at the address of the
variable named. -/
theorem VariableProxy.BindTo_bound {c : Decls} (hc : c.WF) (p : VariableProxy) (a : Nat)
    (h : Heap) (v : Variable) (hv : h a = some v) (hn : p.raw_name c h = some v.raw_name) :
    ∃ p1 h1, p.BindTo c a h = ⟨Status.done, (p1, h1)⟩ ∧
      p1.is_assigned c = p.is_assigned c ∧
      h1 a = some (if p.is_assigned c then (v.set_is_used c).set_maybe_assigned c
        else v.set_is_used c) ∧
      ∀ x, x ≠ a → h1 x = h x := by
  rw [VariableProxy.BindTo_of_name_eq c p a h v hv hn]
  have hA : ((p.set_var a).set_is_resolved c).is_assigned c = p.is_assigned c := by
    rw [VariableProxy.is_assigned_set_is_resolved hc, VariableProxy.is_assigned_set_var]
  rw [hA]
  refine ⟨_, _, rfl, hA, ?_, ?_⟩
  · cases p.is_assigned c <;> simp [Heap.store]
  · intro x hx
    cases p.is_assigned c <;> simp [Heap.store, hx]

/-! ## The declaration list -/

theorem DeclHeap.store_same_decl (m : DeclHeap) (a : Nat) (d : Declaration) :
    m.store a d a = some d := by
  simp [DeclHeap.store]

theorem DeclHeap.store_other_decl (m : DeclHeap) (a b : Nat) (d : Declaration) (hb : b ≠ a) :
    m.store a d b = m b := by
  simp [DeclHeap.store, hb]

/-- A traversal that yields nothing started at a null link. -/
theorem ThreadedList.for_each_eq_nil (m : DeclHeap) (fuel : Nat) (start : Option Nat)
    (h : ThreadedList.for_each m fuel start = some []) : start = none := by
  cases start with
  | none => rfl
  | some a =>
    cases fuel with
    | zero => simp [ThreadedList.for_each] at h
    | succ n =>
      unfold ThreadedList.for_each at h
      split at h
      · simp at h
      · simp at h

/-- More fuel does not change a finished traversal. -/
theorem ThreadedList.for_each_mono (m : DeclHeap) (fuel : Nat) :
    ∀ (start : Option Nat) (as : List Nat), ThreadedList.for_each m fuel start = some as →
      ∀ k, ThreadedList.for_each m (fuel + k) start = some as := by
  induction fuel with
  | zero =>
    intro start as h k
    cases start with
    | none =>
      have e : as = [] := by
        simp [ThreadedList.for_each] at h
        exact h
      subst e
      simp [ThreadedList.for_each]
    | some a => simp [ThreadedList.for_each] at h
  | succ n ih =>
    intro start as h k
    cases start with
    | none =>
      have e : as = [] := by
        simp [ThreadedList.for_each] at h
        exact h
      subst e
      simp [ThreadedList.for_each]
    | some a =>
      have e : n + 1 + k = (n + k) + 1 := by omega
      rw [e]
      unfold ThreadedList.for_each at h ⊢
      cases hm : m a with
      | none => simp [hm] at h
      | some d =>
        simp only [hm] at h ⊢
        cases hr : ThreadedList.for_each m n d.next_ with
        | none => simp [hr] at h
        | some rest =>
          rw [ih d.next_ rest hr k]
          rw [hr] at h
          exact h

/-- Linking a new declaration behind the last one of a traversed list extends the traversal by
it. -/
theorem ThreadedList.for_each_snoc (m : DeclHeap) (v : Nat) (dv : Declaration)
    (hv : m v = some dv) (hvn : dv.next_ = none) (last : Nat) (dl : Declaration)
    (fuel : Nat) :
    ∀ (start : Option Nat) (as : List Nat), ThreadedList.for_each m fuel start = some as →
      as.Nodup → v ∉ as → as.getLast? = some last →
      ThreadedList.for_each (m.store last (dl.link v)) (fuel + 1) start
        = some (as ++ [v]) := by
  induction fuel with
  | zero =>
    intro start as h _ _ hlast
    cases start with
    | none =>
      simp [ThreadedList.for_each] at h
      subst h
      simp at hlast
    | some a => simp [ThreadedList.for_each] at h
  | succ n ih =>
    intro start as h hnodup hvas hlast
    cases start with
    | none =>
      simp [ThreadedList.for_each] at h
      subst h
      simp at hlast
    | some a =>
      unfold ThreadedList.for_each at h
      cases hm : m a with
      | none => simp [hm] at h
      | some d =>
        simp only [hm] at h
        cases hr : ThreadedList.for_each m n d.next_ with
        | none => simp [hr] at h
        | some rest =>
          rw [hr] at h
          simp only [Option.map_some', Option.some.injEq] at h
          subst h
          have hva : v ≠ a := fun e => hvas (e ▸ List.mem_cons_self _ _)
          cases rest with
          | nil =>
            have hnext : d.next_ = none := ThreadedList.for_each_eq_nil m n _ hr
            have hla : last = a := by
              simp at hlast
              exact hlast.symm
            subst hla
            have e1 : ThreadedList.for_each (m.store last (dl.link v)) (n + 1) (some v)
                = some [v] := by
              unfold ThreadedList.for_each
              rw [DeclHeap.store_other_decl m last v _ hva, hv]
              simp [hvn, ThreadedList.for_each]
            unfold ThreadedList.for_each
            rw [DeclHeap.store_same_decl]
            show (ThreadedList.for_each (m.store last (dl.link v)) (n + 1) (some v)).map
              (fun rest => last :: rest) = some ([last] ++ [v])
            rw [e1]
            rfl
          | cons b r =>
            have hlast2 : (b :: r).getLast? = some last := by
              rw [List.getLast?_cons_cons] at hlast
              exact hlast
            have hmem : last ∈ b :: r := List.mem_of_getLast?_eq_some hlast2
            have hnd := List.nodup_cons.1 hnodup
            have hal : a ≠ last := fun e => hnd.1 (e ▸ hmem)
            have hvr : v ∉ b :: r := fun e => hvas (List.mem_cons_of_mem _ e)
            have step := ih d.next_ (b :: r) hr hnd.2 hvr hlast2
            unfold ThreadedList.for_each
            rw [DeclHeap.store_other_decl m last a _ hal, hm]
            show (ThreadedList.for_each (m.store last (dl.link v)) (n + 1) d.next_).map
              (fun rest => a :: rest) = some (a :: b :: r ++ [v])
            rw [step]
            rfl

theorem ThreadedList.appendAll_snoc (m : DeclHeap) (as : List Nat) (v : Nat) :
    ThreadedList.appendAll m (as ++ [v])
      = (ThreadedList.appendAll m as).1.append (ThreadedList.appendAll m as).2 v := by
  simp [ThreadedList.appendAll, List.foldl_append]

/-- The list and the heap after a sequence of distinct, freshly constructed declarations has
been appended. -/
theorem ThreadedList.appendAll_spec (m : DeclHeap) (as : List Nat) :
    as.Nodup → (∀ a ∈ as, ∃ d, m a = some d ∧ d.next_ = none) →
      (ThreadedList.appendAll m as).1.head_ = as.head? ∧
      (ThreadedList.appendAll m as).1.tail_ = as.getLast? ∧
      ThreadedList.for_each (ThreadedList.appendAll m as).2 as.length
        (ThreadedList.appendAll m as).1.head_ = some as ∧
      (∀ x, x ∉ as → (ThreadedList.appendAll m as).2 x = m x) ∧
      (∀ a ∈ as, ∃ d, (ThreadedList.appendAll m as).2 a = some d) := by
  induction as using List.reverseRecOn with
  | nil =>
    intro _ _
    refine ⟨rfl, rfl, rfl, fun _ _ => rfl, ?_⟩
    intro a ha
    cases ha
  | append_singleton as v ih =>
    intro hnodup hfresh
    have hnd : as.Nodup ∧ v ∉ as := by
      have := List.nodup_append.1 hnodup
      refine ⟨this.1, ?_⟩
      intro hmem
      exact this.2.2 hmem (List.mem_singleton_self v) |>.elim
    obtain ⟨hhead, htail, htrav, hframe, hlive⟩ :=
      ih hnd.1 (fun a ha => hfresh a (List.mem_append_left _ ha))
    obtain ⟨dv, hdv, hdvn⟩ := hfresh v (List.mem_append_right _ (List.mem_singleton_self v))
    have hv2 : (ThreadedList.appendAll m as).2 v = some dv := by
      rw [hframe v hnd.2, hdv]
    rw [ThreadedList.appendAll_snoc]
    cases as with
    | nil =>
      have ht : (ThreadedList.appendAll m []).1.tail_ = none := rfl
      have hm : (ThreadedList.appendAll m []).2 = m := rfl
      simp only [ThreadedList.append, ht, hm, List.nil_append, List.length_singleton,
        List.head?_cons, List.getLast?_singleton]
      refine ⟨trivial, trivial, ?_, fun _ _ => trivial, ?_⟩
      · simp [ThreadedList.for_each, hdv, hdvn]
      · intro a ha
        rw [List.mem_singleton.1 ha]
        exact ⟨dv, hdv⟩
    | cons b r =>
      obtain ⟨last, hlast⟩ : ∃ last, (b :: r).getLast? = some last :=
        ⟨(b :: r).getLast (List.cons_ne_nil _ _), List.getLast?_eq_getLast _ _⟩
      have hmem : last ∈ b :: r := List.mem_of_getLast?_eq_some hlast
      obtain ⟨dl, hdl⟩ := hlive last hmem
      rw [hlast] at htail
      have hvl : v ≠ last := fun e => hnd.2 (e ▸ hmem)
      simp only [ThreadedList.append, htail, hdl]
      refine ⟨?_, ?_, ?_, ?_, ?_⟩
      · rw [hhead]
        rfl
      · rw [List.getLast?_append]
        rfl
      · have step := ThreadedList.for_each_snoc (ThreadedList.appendAll m (b :: r)).2 v dv
          hv2 hdvn last dl (b :: r).length _ _ htrav hnd.1 hnd.2 hlast
        rw [List.length_append, List.length_singleton]
        exact step
      · intro x hx
        have hx1 : x ∉ b :: r := fun e => hx (List.mem_append_left _ e)
        have hxl : x ≠ last := fun e => hx1 (e ▸ hmem)
        rw [DeclHeap.store_other_decl _ _ _ _ hxl]
        exact hframe x hx1
      · intro a ha
        by_cases hal : a = last
        · subst hal
          exact ⟨_, DeclHeap.store_same_decl _ _ _⟩
        · rw [DeclHeap.store_other_decl _ _ _ _ hal]
          rcases List.mem_append.1 ha with h1 | h1
          · exact hlive a h1
          · rw [List.mem_singleton.1 h1]
            exact ⟨dv, hv2⟩
/-! ## Binding -/

/-- C1: a freshly constructed proxy is unresolved, and for a variable `v` (at address `a`)
whose name equals the proxy's raw name, one `BindTo(v)` runs to its end and leaves the proxy
resolved, `var()` equal to `v`, and `v` marked used. -/
theorem C1_bind_fresh_proxy (c : Decls) (hc : c.WF) (name kind : Nat) (pos : Int) (h : Heap)
    (a : Nat) (v : Variable) (hv : h a = some v)
    (hname : (AstNodeFactory.NewVariableProxy c name kind pos).raw_name c h
      = some v.raw_name) :
    Variable.is_resolved c (AstNodeFactory.NewVariableProxy c name kind pos) = false ∧
    ∃ p1 h1, (AstNodeFactory.NewVariableProxy c name kind pos).BindTo c a h
        = ⟨Status.done, (p1, h1)⟩ ∧
      Variable.is_resolved c p1 = true ∧ p1.var = a ∧
      ∃ v1, h1 a = some v1 ∧ v1.is_used c = true := by
  refine ⟨(VariableProxy.new_flags hc name kind pos).1, ?_⟩
  rw [VariableProxy.BindTo_of_name_eq c _ a h v hv hname]
  refine ⟨_, _, rfl, VariableProxy.is_resolved_set_is_resolved hc _, rfl, ?_⟩
  split
  · exact ⟨_, Heap.store_same _ _ _, by
      rw [Variable.is_used_set_maybe_assigned hc, Variable.is_used_set_is_used hc]⟩
  · exact ⟨_, Heap.store_same _ _ _, Variable.is_used_set_is_used hc _⟩

/-- Witness for C1: the fresh proxy for the name `7` bound to the variable named `7` at address
`1` of the sample heap. -/
theorem C1_bind_fresh_proxy_witness :
    sampleDecls.WF ∧ sampleHeap 1 = some sampleVar ∧
    (AstNodeFactory.NewVariableProxy sampleDecls 7 0 5).raw_name sampleDecls sampleHeap
      = some sampleVar.raw_name ∧
    (Variable.is_resolved sampleDecls (AstNodeFactory.NewVariableProxy sampleDecls 7 0 5)
        = false ∧
      ∃ p1 h1, (AstNodeFactory.NewVariableProxy sampleDecls 7 0 5).BindTo sampleDecls 1
          sampleHeap = ⟨Status.done, (p1, h1)⟩ ∧
        Variable.is_resolved sampleDecls p1 = true ∧ p1.var = 1 ∧
        ∃ v1, h1 1 = some v1 ∧ v1.is_used sampleDecls = true) :=
  ⟨by decide, by decide, by decide,
    C1_bind_fresh_proxy sampleDecls (by decide) 7 0 5 sampleHeap 1 sampleVar (by decide)
      (by decide)⟩

/-- C2: for every proxy whose is-assigned flag is set and every variable `v` (at address `a`)
with the proxy's name, whatever the flags of `v`, `BindTo(v)` runs to its end and afterwards
`v.maybe_assigned()` is `kMaybeAssigned`. -/
theorem C2_bind_assigned_proxy (c : Decls) (hc : c.WF) (p : VariableProxy) (h : Heap)
    (a : Nat) (v : Variable) (hv : h a = some v)
    (hname : p.raw_name c h = some v.raw_name) (hassigned : p.is_assigned c = true) :
    ∃ p1 h1, p.BindTo c a h = ⟨Status.done, (p1, h1)⟩ ∧
      ∃ v1, h1 a = some v1 ∧ v1.maybe_assigned c = c.kMaybeAssigned := by
  rw [VariableProxy.BindTo_of_name_eq c _ a h v hv hname]
  refine ⟨_, _, rfl, ?_⟩
  rw [VariableProxy.is_assigned_set_is_resolved hc, VariableProxy.is_assigned_set_var, hassigned]
  exact ⟨_, Heap.store_same _ _ _, Variable.maybe_assigned_set_maybe_assigned hc _⟩

/-- Witness for C2: the sample proxy, marked assigned before resolution, bound to the variable
at address `1`. -/
theorem C2_bind_assigned_proxy_witness :
    sampleDecls.WF ∧ sampleHeap 1 = some sampleVar ∧
    ∃ p1 h1, (Variable.set_is_assigned sampleDecls sampleProxy sampleHeap).state.1.BindTo
        sampleDecls 1 sampleHeap = ⟨Status.done, (p1, h1)⟩ ∧
      ∃ v1, h1 1 = some v1 ∧ v1.maybe_assigned sampleDecls = sampleDecls.kMaybeAssigned :=
  ⟨by decide, by decide,
    C2_bind_assigned_proxy sampleDecls (by decide)
      (Variable.set_is_assigned sampleDecls sampleProxy sampleHeap).state.1 sampleHeap 1
      sampleVar (by decide) (by decide) (by decide)⟩

/-- C4: for an unresolved proxy, whose raw name is the name in its slot, and a variable `v`
at address `a`: `BindTo(v)` fails its check when the raw name differs from the name of `v`,
leaving the proxy and the heap (so `v`) exactly as they were, and runs to its end when the
names are equal. -/
theorem C4_bind_checks_name (c : Decls) (p : VariableProxy) (h : Heap) (a : Nat)
    (v : Variable) (hv : h a = some v) (hp : Variable.is_resolved c p = false) :
    p.raw_name c h = some p.slot.word ∧
    (p.slot.word ≠ v.raw_name → p.BindTo c a h = ⟨Status.dcheck_failed, (p, h)⟩) ∧
    (p.slot.word = v.raw_name → (p.BindTo c a h).status = Status.done) := by
  have hraw := VariableProxy.raw_name_of_unresolved c p h hp
  refine ⟨hraw, ?_, ?_⟩
  · intro hne
    exact VariableProxy.BindTo_of_name_ne c p a h v _ hv hraw hne
  · intro heq
    rw [VariableProxy.BindTo_of_name_eq c p a h v hv (by rw [hraw, heq])]

/-- Witness for C4: the unresolved sample proxy for the name `7` and the variable named `9` at
address `3`. -/
theorem C4_bind_checks_name_witness :
    sampleHeap 3 = some sampleVar3 ∧ Variable.is_resolved sampleDecls sampleProxy = false ∧
    (sampleProxy.raw_name sampleDecls sampleHeap = some sampleProxy.slot.word ∧
      (sampleProxy.slot.word ≠ sampleVar3.raw_name →
        sampleProxy.BindTo sampleDecls 3 sampleHeap
          = ⟨Status.dcheck_failed, (sampleProxy, sampleHeap)⟩) ∧
      (sampleProxy.slot.word = sampleVar3.raw_name →
        (sampleProxy.BindTo sampleDecls 3 sampleHeap).status = Status.done)) :=
  ⟨by decide, by decide,
    C4_bind_checks_name sampleDecls sampleProxy sampleHeap 3 sampleVar3 (by decide)
      (by decide)⟩

/-! ## Node kinds -/

/-- C5: for every node `n` and every kind `t` of the enumeration, `As t` returns `n` itself
exactly when the kind tag of `n` is `t`, and `nullptr` exactly when it is not; `Is t` is true
exactly when `As t` is non-null; and for a node that carries the tag of a kind `k`, as every
node does that the `AstNode` constructor built, `As t` succeeds for `t = k` and for no other
kind. -/
theorem C5_narrowing (n : AstNode) (t : NodeType) :
    (n.As t = some n ↔ n.node_type = t.value) ∧
    (n.As t = none ↔ n.node_type ≠ t.value) ∧
    n.Is t = (n.As t).isSome ∧
    (∀ k : NodeType, n.node_type = k.value → ((n.As t).isSome = true ↔ t = k)) ∧
    (∀ (pos : Int) (k : NodeType), ((AstNode.new pos k).As t).isSome = true ↔ t = k) := by
  have key : ∀ (m : AstNode) (k : NodeType), m.node_type = k.value →
      ((m.As t).isSome = true ↔ t = k) := by
    intro m k hk
    unfold AstNode.As
    rw [hk]
    constructor
    · intro hsome
      by_cases e : k.value = t.value
      · exact (NodeType.value_injective k t e).symm
      · simp [e] at hsome
    · intro e
      simp [e]
  refine ⟨?_, ?_, ?_, key n, fun pos k => key _ k (AstNode.node_type_new pos k)⟩
  · unfold AstNode.As
    by_cases e : n.node_type = t.value <;> simp [e]
  · unfold AstNode.As
    by_cases e : n.node_type = t.value <;> simp [e]
  · unfold AstNode.Is AstNode.As
    by_cases e : n.node_type = t.value <;> simp [e]

/-! ## Variable construction -/

/-- C6: for every scope, name, kind and maybe-assigned flag, the `Variable` constructor called
with mode `kVar` and `kNeedsInitialization` fails its check; every other pair of mode and
initialisation flag passes it. -/
theorem C6_var_needs_no_initialization (c : Decls) (scope name kind maybe_assigned_flag : Nat) :
    (Variable.new c scope name c.kVar kind InitializationFlag.kNeedsInitialization
      maybe_assigned_flag).status = Status.dcheck_failed ∧
    ∀ (mode : Nat) (flag : InitializationFlag),
      (Variable.new c scope name mode kind flag maybe_assigned_flag).status
          = Status.dcheck_failed ↔
        (mode = c.kVar ∧ flag = InitializationFlag.kNeedsInitialization) := by
  refine ⟨by simp [Variable.new], ?_⟩
  intro mode flag
  unfold Variable.new
  by_cases e : mode = c.kVar ∧ flag = InitializationFlag.kNeedsInitialization
  · simp [e]
  · simp only [if_neg e]
    simp [e]

/-! ## The kind tag -/

/-- C8: the kind tag decoded from `NodeTypeField` is the kind given to the `AstNode`
constructor, and stays so: for a `VariableProxy` after the flag initialisation of its
constructor and after any sequence of calls (`set_is_resolved`, `set_var`, `BindTo`, and the
other mutators of the file) it is `kVariableProxy`; for a `VariableDeclaration` after the
`IsNestedField` update of its constructor and any sequence of `set_var` calls it is
`kVariableDeclaration`. -/
theorem C8_kind_tag_never_changes (c : Decls) (hc : c.WF) (name kind : Nat) (pos : Int)
    (h : Heap) (calls : List Call) (is_nested : Bool) (vars : List Nat) (t : NodeType) :
    (AstNode.new pos t).node_type = t.value ∧
    (AstNodeFactory.NewVariableProxy c name kind pos).node_type
      = NodeType.kVariableProxy.value ∧
    (runCalls c calls (AstNodeFactory.NewVariableProxy c name kind pos, h)).state.1.node_type
      = NodeType.kVariableProxy.value ∧
    (VariableDeclaration.new pos is_nested).node_type = NodeType.kVariableDeclaration.value ∧
    (vars.foldl VariableDeclaration.set_var (VariableDeclaration.new pos is_nested)).node_type
      = NodeType.kVariableDeclaration.value := by
  refine ⟨AstNode.node_type_new pos t, (VariableProxy.new_flags hc name kind pos).2.2, ?_,
    VariableDeclaration.node_type_new_declaration pos is_nested, ?_⟩
  · rw [runCalls_node_type hc]
    exact (VariableProxy.new_flags hc name kind pos).2.2
  · rw [VariableDeclaration.node_type_foldl_set_var]
    exact VariableDeclaration.node_type_new_declaration pos is_nested

/-- Witness for C8: the sample declarations, a proxy taken through five calls and a nested
declaration linked twice. -/
theorem C8_kind_tag_never_changes_witness :
    sampleDecls.WF ∧
    ((AstNode.new 5 NodeType.kBlock).node_type = NodeType.kBlock.value ∧
    (AstNodeFactory.NewVariableProxy sampleDecls 7 0 5).node_type
      = NodeType.kVariableProxy.value ∧
    (runCalls sampleDecls
        [Call.set_is_assigned, Call.BindTo 1, Call.VariableProxy_set_is_resolved,
          Call.set_var 2, Call.BindTo 2]
        (AstNodeFactory.NewVariableProxy sampleDecls 7 0 5, sampleHeap)).state.1.node_type
      = NodeType.kVariableProxy.value ∧
    (VariableDeclaration.new 5 true).node_type = NodeType.kVariableDeclaration.value ∧
    ([1, 2].foldl VariableDeclaration.set_var (VariableDeclaration.new 5 true)).node_type
      = NodeType.kVariableDeclaration.value) :=
  ⟨by decide,
    C8_kind_tag_never_changes sampleDecls (by decide) 7 0 5 sampleHeap
      [Call.set_is_assigned, Call.BindTo 1, Call.VariableProxy_set_is_resolved,
        Call.set_var 2, Call.BindTo 2] true [1, 2] NodeType.kBlock⟩

/-! ## Scenario A -/

/-- C7: scenario A, for every name `x`.  A variable `v` named `x` lives at address `a` and a
declaration is linked to it by `set_var`.  Of two fresh proxies for `x` one stays a plain
read (is-assigned false) and one is marked as an assignment target by `set_is_assigned`
(is-assigned true, heap untouched).  Bound to `v` in either order, both calls run to their
end, `var()` of both proxies is `v`, and `v` ends used and `kMaybeAssigned`. -/
theorem C7_scenario_A (c : Decls) (hc : c.WF) (x k1 k2 : Nat) (pos1 pos2 dpos : Int)
    (h : Heap) (a : Nat) (v : Variable) (hv : h a = some v) (hx : v.raw_name = x) :
    ((AstNodeFactory.NewVariableDeclaration dpos).set_var a).var = some a ∧
    (AstNodeFactory.NewVariableProxy c x k1 pos1).is_assigned c = false ∧
    ∃ pw, Variable.set_is_assigned c (AstNodeFactory.NewVariableProxy c x k2 pos2) h
        = ⟨Status.done, (pw, h)⟩ ∧ pw.is_assigned c = true ∧
      (∃ p1 h1 p2 h2 v2,
        (AstNodeFactory.NewVariableProxy c x k1 pos1).BindTo c a h = ⟨Status.done, (p1, h1)⟩ ∧
        pw.BindTo c a h1 = ⟨Status.done, (p2, h2)⟩ ∧ p1.var = a ∧ p2.var = a ∧
        h2 a = some v2 ∧ v2.is_used c = true ∧ v2.maybe_assigned c = c.kMaybeAssigned) ∧
      (∃ p1 h1 p2 h2 v2,
        pw.BindTo c a h = ⟨Status.done, (p1, h1)⟩ ∧
        (AstNodeFactory.NewVariableProxy c x k1 pos1).BindTo c a h1
          = ⟨Status.done, (p2, h2)⟩ ∧ p1.var = a ∧ p2.var = a ∧
        h2 a = some v2 ∧ v2.is_used c = true ∧ v2.maybe_assigned c = c.kMaybeAssigned) := by
  obtain ⟨hr1, ha1, -⟩ := VariableProxy.new_flags hc x k1 pos1
  obtain ⟨hr2, -, -⟩ := VariableProxy.new_flags hc x k2 pos2
  refine ⟨rfl, ha1, _, Variable.set_is_assigned_of_unresolved hc _ h hr2, ?_, ?_, ?_⟩
  · exact Variable.is_assigned_update hc _
  · exact VariableProxy.bind_two hc _ _ a h v hv hr1
      ((Variable.is_resolved_update_assigned hc _).trans hr2) hx.symm hx.symm
      (Or.inr (Variable.is_assigned_update hc _))
  · exact VariableProxy.bind_two hc _ _ a h v hv
      ((Variable.is_resolved_update_assigned hc _).trans hr2) hr1 hx.symm hx.symm
      (Or.inl (Variable.is_assigned_update hc _))

/-- Witness for C7: scenario A for the name `7` in the sample heap. -/
theorem C7_scenario_A_witness :
    sampleDecls.WF ∧ sampleHeap 1 = some sampleVar ∧ sampleVar.raw_name = 7 ∧
    (((AstNodeFactory.NewVariableDeclaration 3).set_var 1).var = some 1 ∧
    (AstNodeFactory.NewVariableProxy sampleDecls 7 0 5).is_assigned sampleDecls = false ∧
    ∃ pw, Variable.set_is_assigned sampleDecls
          (AstNodeFactory.NewVariableProxy sampleDecls 7 0 9) sampleHeap
        = ⟨Status.done, (pw, sampleHeap)⟩ ∧ pw.is_assigned sampleDecls = true ∧
      (∃ p1 h1 p2 h2 v2,
        (AstNodeFactory.NewVariableProxy sampleDecls 7 0 5).BindTo sampleDecls 1 sampleHeap
          = ⟨Status.done, (p1, h1)⟩ ∧
        pw.BindTo sampleDecls 1 h1 = ⟨Status.done, (p2, h2)⟩ ∧ p1.var = 1 ∧ p2.var = 1 ∧
        h2 1 = some v2 ∧ v2.is_used sampleDecls = true ∧
        v2.maybe_assigned sampleDecls = sampleDecls.kMaybeAssigned) ∧
      (∃ p1 h1 p2 h2 v2,
        pw.BindTo sampleDecls 1 sampleHeap = ⟨Status.done, (p1, h1)⟩ ∧
        (AstNodeFactory.NewVariableProxy sampleDecls 7 0 5).BindTo sampleDecls 1 h1
          = ⟨Status.done, (p2, h2)⟩ ∧ p1.var = 1 ∧ p2.var = 1 ∧
        h2 1 = some v2 ∧ v2.is_used sampleDecls = true ∧
        v2.maybe_assigned sampleDecls = sampleDecls.kMaybeAssigned)) :=
  ⟨by decide, by decide, by decide,
    C7_scenario_A sampleDecls (by decide) 7 0 0 5 9 3 sampleHeap 1 sampleVar (by decide)
      (by decide)⟩

/-! ## Flags -/

/-- C9: flag transitions are one-way.  For every proxy, every heap and every call among the
mutators of the file, whatever way the call ends: a proxy flag (is-assigned, is-resolved) that
is true before the call is true after it, and every variable of the heap is still there after
the call, with is-used still true if it was true and maybe-assigned still `kMaybeAssigned` if
it was. -/
theorem C9_flags_one_way (c : Decls) (hc : c.WF) (k : Call) (p : VariableProxy) (h : Heap) :
    (Variable.is_assigned c p = true →
      Variable.is_assigned c (k.run c (p, h)).state.1 = true) ∧
    (Variable.is_resolved c p = true →
      Variable.is_resolved c (k.run c (p, h)).state.1 = true) ∧
    ∀ (a : Nat) (v : Variable), h a = some v →
      ∃ v1, (k.run c (p, h)).state.2 a = some v1 ∧
        (v.is_used c = true → v1.is_used c = true) ∧
        (v.maybe_assigned c = c.kMaybeAssigned →
          v1.maybe_assigned c = c.kMaybeAssigned) := by
  have same : ∀ (a : Nat) (v : Variable), h a = some v →
      ∃ v1, h a = some v1 ∧ (v.is_used c = true → v1.is_used c = true) ∧
        (v.maybe_assigned c = c.kMaybeAssigned →
          v1.maybe_assigned c = c.kMaybeAssigned) :=
    fun a v hv => ⟨v, hv, id, id⟩
  cases k with
  | set_var v => exact ⟨id, id, same⟩
  | VariableProxy_set_is_resolved =>
    refine ⟨fun hp => ?_, fun _ => VariableProxy.is_resolved_set_is_resolved hc p, same⟩
    exact (VariableProxy.is_assigned_set_is_resolved hc p).trans hp
  | set_is_resolved =>
    refine ⟨fun hp => ?_, fun _ => VariableProxy.is_resolved_set_is_resolved hc p, same⟩
    exact (VariableProxy.is_assigned_set_is_resolved hc p).trans hp
  | BindTo var =>
    show (Variable.is_assigned c p = true →
        Variable.is_assigned c (p.BindTo c var h).state.1 = true) ∧
      (Variable.is_resolved c p = true →
        Variable.is_resolved c (p.BindTo c var h).state.1 = true) ∧
      ∀ (a : Nat) (v : Variable), h a = some v →
        ∃ v1, (p.BindTo c var h).state.2 a = some v1 ∧
          (v.is_used c = true → v1.is_used c = true) ∧
          (v.maybe_assigned c = c.kMaybeAssigned →
            v1.maybe_assigned c = c.kMaybeAssigned)
    cases hr : p.raw_name c h with
    | none =>
      have e : p.BindTo c var h = ⟨Status.undefined, (p, h)⟩ := by
        unfold VariableProxy.BindTo
        rw [hr]
      rw [e]
      exact ⟨id, id, same⟩
    | some name =>
      cases hv : h var with
      | none =>
        have e : p.BindTo c var h = ⟨Status.undefined, (p, h)⟩ := by
          unfold VariableProxy.BindTo
          rw [hr, hv]
        rw [e]
        exact ⟨id, id, same⟩
      | some w =>
        by_cases hn : name = w.raw_name
        · subst hn
          obtain ⟨p1, h1, w1, hb, -, hres, has, hw1, -, hu, -, hm, hframe⟩ :=
            VariableProxy.BindTo_summary hc p var h w hv hr
          rw [hb]
          refine ⟨fun hp => has.trans hp, fun _ => hres, ?_⟩
          intro a v hav
          by_cases ha : a = var
          · subst ha
            rw [hv] at hav
            cases hav
            exact ⟨w1, hw1, fun _ => hu, hm⟩
          · exact ⟨v, (hframe a ha).trans hav, id, id⟩
        · rw [VariableProxy.BindTo_of_name_ne c p var h w name hv hr hn]
          exact ⟨id, id, same⟩
  | set_is_assigned =>
    show (Variable.is_assigned c p = true →
        Variable.is_assigned c (Variable.set_is_assigned c p h).state.1 = true) ∧
      (Variable.is_resolved c p = true →
        Variable.is_resolved c (Variable.set_is_assigned c p h).state.1 = true) ∧
      ∀ (a : Nat) (v : Variable), h a = some v →
        ∃ v1, (Variable.set_is_assigned c p h).state.2 a = some v1 ∧
          (v.is_used c = true → v1.is_used c = true) ∧
          (v.maybe_assigned c = c.kMaybeAssigned →
            v1.maybe_assigned c = c.kMaybeAssigned)
    rw [Variable.set_is_assigned_proxy]
    refine ⟨fun _ => Variable.is_assigned_update hc p,
      fun hp => (Variable.is_resolved_update_assigned hc p).trans hp, ?_⟩
    unfold Variable.set_is_assigned
    simp only []
    split
    · split
      · rename_i w hw
        intro a v hav
        exact Heap.store_flags_kept c h _ w _ hw
          (fun hu => (Variable.is_used_set_maybe_assigned hc w).trans hu)
          (fun _ => Variable.maybe_assigned_set_maybe_assigned hc w) a v hav
      · exact same
    · exact same
  | set_is_used a0 =>
    simp only [Call.run]
    split
    · rename_i w hw
      refine ⟨id, id, ?_⟩
      intro a v hav
      exact Heap.store_flags_kept c h _ w _ hw (fun _ => Variable.is_used_set_is_used hc w)
        (fun hm => (Variable.maybe_assigned_set_is_used hc w).trans hm) a v hav
    · exact ⟨id, id, same⟩
  | set_maybe_assigned a0 =>
    simp only [Call.run]
    split
    · rename_i w hw
      refine ⟨id, id, ?_⟩
      intro a v hav
      exact Heap.store_flags_kept c h _ w _ hw
        (fun hu => (Variable.is_used_set_maybe_assigned hc w).trans hu)
        (fun _ => Variable.maybe_assigned_set_maybe_assigned hc w) a v hav
    · exact ⟨id, id, same⟩

/-- Witness for C9: a second `BindTo` on the bound sample proxy. -/
theorem C9_flags_one_way_witness :
    sampleDecls.WF ∧
    ((Variable.is_assigned sampleDecls sampleBound.1 = true →
      Variable.is_assigned sampleDecls
        ((Call.BindTo 2).run sampleDecls (sampleBound.1, sampleBound.2)).state.1 = true) ∧
    (Variable.is_resolved sampleDecls sampleBound.1 = true →
      Variable.is_resolved sampleDecls
        ((Call.BindTo 2).run sampleDecls (sampleBound.1, sampleBound.2)).state.1 = true) ∧
    ∀ (a : Nat) (v : Variable), sampleBound.2 a = some v →
      ∃ v1, ((Call.BindTo 2).run sampleDecls (sampleBound.1, sampleBound.2)).state.2 a
          = some v1 ∧
        (v.is_used sampleDecls = true → v1.is_used sampleDecls = true) ∧
        (v.maybe_assigned sampleDecls = sampleDecls.kMaybeAssigned →
          v1.maybe_assigned sampleDecls = sampleDecls.kMaybeAssigned)) :=
  ⟨by decide, C9_flags_one_way sampleDecls (by decide) (Call.BindTo 2) sampleBound.1
    sampleBound.2⟩

/-- C10: `set_is_assigned`, however it ends, leaves `is_assigned()` true.  When the proxy was
not resolved at the call it runs to its end and leaves the heap, so every maybe-assigned
flag, as it was.  When the proxy was resolved and `var()` addresses a variable, it runs to its
end, that variable is `kMaybeAssigned` afterwards, and no other object of the heap
changes. -/
theorem C10_set_is_assigned (c : Decls) (hc : c.WF) (p : VariableProxy) (h : Heap) :
    Variable.is_assigned c (Variable.set_is_assigned c p h).state.1 = true ∧
    (Variable.is_resolved c p = false →
      (Variable.set_is_assigned c p h).status = Status.done ∧
      (Variable.set_is_assigned c p h).state.2 = h) ∧
    (Variable.is_resolved c p = true → ∀ v, h p.var = some v →
      ∃ p1 h1 v1, Variable.set_is_assigned c p h = ⟨Status.done, (p1, h1)⟩ ∧
        h1 p.var = some v1 ∧ v1.maybe_assigned c = c.kMaybeAssigned ∧
        ∀ x, x ≠ p.var → h1 x = h x) := by
  refine ⟨?_, ?_, ?_⟩
  · rw [Variable.set_is_assigned_proxy]
    exact Variable.is_assigned_update hc p
  · intro hp
    rw [Variable.set_is_assigned_of_unresolved hc p h hp]
    exact ⟨rfl, rfl⟩
  · intro hp v hv
    have hres : Variable.is_resolved c
        { p with bit_field_ := c.IsAssignedField.update 32 p.bit_field_ (boolToNat true) }
        = true := (Variable.is_resolved_update_assigned hc p).trans hp
    have hvar : VariableProxy.var
        { p with bit_field_ := c.IsAssignedField.update 32 p.bit_field_ (boolToNat true) }
        = p.var := rfl
    have e : Variable.set_is_assigned c p h = ⟨Status.done,
        ({ p with bit_field_ := c.IsAssignedField.update 32 p.bit_field_ (boolToNat true) },
          h.store p.var (v.set_maybe_assigned c))⟩ := by
      unfold Variable.set_is_assigned
      simp only []
      rw [hres, hvar, hv]
      rfl
    exact ⟨_, _, _, e, Heap.store_same _ _ _, Variable.maybe_assigned_set_maybe_assigned hc v,
      fun x hx => Heap.store_other h _ x _ hx⟩

/-- Witness for C10: `set_is_assigned` on the bound sample proxy. -/
theorem C10_set_is_assigned_witness :
    sampleDecls.WF ∧
    (Variable.is_assigned sampleDecls
        (Variable.set_is_assigned sampleDecls sampleBound.1 sampleBound.2).state.1 = true ∧
    (Variable.is_resolved sampleDecls sampleBound.1 = false →
      (Variable.set_is_assigned sampleDecls sampleBound.1 sampleBound.2).status
        = Status.done ∧
      (Variable.set_is_assigned sampleDecls sampleBound.1 sampleBound.2).state.2
        = sampleBound.2) ∧
    (Variable.is_resolved sampleDecls sampleBound.1 = true →
      ∀ v, sampleBound.2 sampleBound.1.var = some v →
      ∃ p1 h1 v1, Variable.set_is_assigned sampleDecls sampleBound.1 sampleBound.2
          = ⟨Status.done, (p1, h1)⟩ ∧
        h1 sampleBound.1.var = some v1 ∧
        v1.maybe_assigned sampleDecls = sampleDecls.kMaybeAssigned ∧
        ∀ x, x ≠ sampleBound.1.var → h1 x = sampleBound.2 x)) :=
  ⟨by decide, C10_set_is_assigned sampleDecls (by decide) sampleBound.1 sampleBound.2⟩

/-! ## The declaration link -/

/-- C11, as the code has it: `set_var` stores its argument without looking at the link:
after `d.set_var(v1)` the link `d.var()` is `v1`, writing the `next_` link leaves it `v1`, and
a later `d.set_var(v2)` makes it `v2`; `set_var` changes nothing else of the declaration. -/
theorem C11_set_var_overwrites (d : Declaration) (v1 v2 w : Nat) :
    (d.set_var v1).var = some v1 ∧
    ((d.set_var v1).link w).var = some v1 ∧
    ((d.set_var v1).set_var v2).var = some v2 ∧
    (d.set_var v1).toAstNode = d.toAstNode ∧ (d.set_var v1).next_ = d.next_ :=
  ⟨rfl, rfl, rfl, rfl, rfl⟩

/-- C11 fails as stated: a function declaration linked to the variable at address `1` and then
given the variable at address `2` by `set_var` has `var()` equal to `2`, no longer `1`. -/
theorem C11_set_var_counterexample :
    ((Declaration.new 2 NodeType.kFunctionDeclaration).set_var 1).var = some 1 ∧
    (((Declaration.new 2 NodeType.kFunctionDeclaration).set_var 1).set_var 2).var = some 2 ∧
    (((Declaration.new 2 NodeType.kFunctionDeclaration).set_var 1).set_var 2).var ≠ some 1 := by
  decide

/-! ## The name/variable slot -/

/-- C12, as the code has it: in every state reached from construction through `BindTo` calls
alone, however each call ends, the resolved flag is true exactly when the slot holds a bound
variable and false exactly when it holds the raw name. -/
theorem C12_slot_discriminated_through_BindTo (c : Decls) (hc : c.WF) (name kind : Nat)
    (pos : Int) (h : Heap) (vars : List Nat) :
    Variable.is_resolved c
        (runCalls c (vars.map Call.BindTo)
          (AstNodeFactory.NewVariableProxy c name kind pos, h)).state.1
      = (runCalls c (vars.map Call.BindTo)
          (AstNodeFactory.NewVariableProxy c name kind pos, h)).state.1.slot.holds_var :=
  runCalls_BindTo_discrimination hc vars _ (VariableProxy.new_flags hc name kind pos).1

/-- Witness for C12 as amended: the sample proxy taken through three `BindTo` calls, the
second of which fails the name check. -/
theorem C12_slot_discriminated_through_BindTo_witness :
    sampleDecls.WF ∧
    Variable.is_resolved sampleDecls
        (runCalls sampleDecls ([1, 3, 2].map Call.BindTo)
          (AstNodeFactory.NewVariableProxy sampleDecls 7 0 5, sampleHeap)).state.1
      = (runCalls sampleDecls ([1, 3, 2].map Call.BindTo)
          (AstNodeFactory.NewVariableProxy sampleDecls 7 0 5,
            sampleHeap)).state.1.slot.holds_var :=
  ⟨by decide,
    C12_slot_discriminated_through_BindTo sampleDecls (by decide) 7 0 5 sampleHeap [1, 3, 2]⟩

/-- C12 fails as stated: on the fresh sample proxy `set_var` alone leaves a variable in the
slot while the flag says unresolved, and `set_is_resolved` alone leaves the raw name in the
slot while the flag says resolved. -/
theorem C12_slot_counterexample :
    Variable.is_resolved sampleDecls (sampleProxy.set_var 1) = false ∧
    (sampleProxy.set_var 1).slot = Slot.var_ 1 ∧
    Variable.is_resolved sampleDecls (sampleProxy.set_is_resolved sampleDecls) = true ∧
    (sampleProxy.set_is_resolved sampleDecls).slot = Slot.raw_name_ 7 := by
  decide

/-! ## Field layout and enumeration -/

/-- C16: `IsNestedField` is the single bit that starts at `NodeTypeField::kNext`, bit 6, and
shares no bit with the kind tag in bits 0-5; so for every position and every `is_nested` the
constructed `VariableDeclaration` decodes the kind `kVariableDeclaration` and decodes
`IsNestedField` to the given `is_nested`, which is `false` for the declaration that
`AstNodeFactory::NewVariableDeclaration` returns. -/
theorem C16_is_nested_field_layout (pos : Int) (is_nested : Bool) :
    VariableDeclaration.IsNestedField.shift = NodeTypeField.kNext ∧
    NodeTypeField.kNext = 6 ∧ NodeTypeField.shift = 0 ∧
    VariableDeclaration.IsNestedField.size = 1 ∧
    NodeTypeField.disjoint VariableDeclaration.IsNestedField ∧
    (VariableDeclaration.new pos is_nested).node_type = NodeType.kVariableDeclaration.value ∧
    VariableDeclaration.IsNestedField.decode 32
        (VariableDeclaration.new pos is_nested).bit_field_ = boolToNat is_nested ∧
    (AstNodeFactory.NewVariableDeclaration pos).node_type
      = NodeType.kVariableDeclaration.value ∧
    VariableDeclaration.IsNestedField.decode 32
        (AstNodeFactory.NewVariableDeclaration pos).bit_field_ = boolToNat false :=
  ⟨rfl, rfl, rfl, rfl, by decide, VariableDeclaration.node_type_new_declaration pos is_nested,
    VariableDeclaration.is_nested_new pos is_nested,
    VariableDeclaration.node_type_new_declaration pos false,
    VariableDeclaration.is_nested_new pos false⟩

/-- C17: the enumeration generated from `AST_NODE_LIST` followed by `FAILURE_NODE_LIST` has 57
entries, no kind twice, every kind in it; the kinds are numbered by position, so their values
are pairwise distinct, exactly the numbers 0..56, all below `2^6 = 64`; and `NodeTypeField`
decodes every encoded kind back to itself. -/
theorem C17_node_type_enumeration (s t : NodeType) (n : Nat) :
    NodeType.enumerators.length = 57 ∧ NodeType.enumerators.Nodup ∧
    NodeType.enumerators[t.value]? = some t ∧
    (s.value = t.value ↔ s = t) ∧
    t.value < 57 ∧ t.value < 2 ^ 6 ∧
    (n < 57 ↔ ∃ k : NodeType, k.value = n) ∧
    NodeTypeField.decode 32 (NodeTypeField.encode 32 t.value) = t.value := by
  refine ⟨by decide, by decide, NodeType.enumerators_get t,
    ⟨NodeType.value_injective s t, fun e => e ▸ rfl⟩, NodeType.value_lt_length t,
    NodeType.value_lt t, ⟨NodeType.exists_of_lt n, ?_⟩, ?_⟩
  · rintro ⟨k, rfl⟩
    exact NodeType.value_lt_length k
  · exact BitField.decode_encode 32 NodeTypeField (by decide) t.value (NodeType.value_lt t)

/-! ## Default initialisation -/

/-- C18: for every mode `m`, `DefaultInitializationFlag(m)` is `kCreatedInitialized` when `m`
is `kVar` and `kNeedsInitialization` otherwise, and the `Variable` constructor called with `m`
and that flag passes its check, whatever the other arguments. -/
theorem C18_default_initialization_flag (c : Decls) (m scope name kind maf : Nat) :
    (VariableProxy.DefaultInitializationFlag c m = InitializationFlag.kCreatedInitialized
      ↔ m = c.kVar) ∧
    (VariableProxy.DefaultInitializationFlag c m = InitializationFlag.kNeedsInitialization
      ↔ m ≠ c.kVar) ∧
    (Variable.new c scope name m kind (VariableProxy.DefaultInitializationFlag c m) maf).status
      = Status.done ∧
    (Variable.new_default c scope name m kind
      (VariableProxy.DefaultInitializationFlag c m)).status = Status.done := by
  unfold Variable.new_default Variable.new VariableProxy.DefaultInitializationFlag
  by_cases e : m = c.kVar <;> simp [e]

/-! ## Construction -/

/-- C14: for every scope, name, mode, kind, initialisation flag and maybe-assigned flag that
the constructor accepts (the enumerator values fitting their fields), the constructed
`Variable` decodes back the given mode, kind, initialisation flag and maybe-assigned flag,
`kNotAssigned` when the last argument is omitted; `is_used()` is false, the location is
`UNALLOCATED`, the force-context-allocation and force-hole-initialisation flags are false, the
index is `-1` and the `local_if_not_shadowed_` link is null; scope and name are the given
ones. -/
theorem C14_constructor_roundtrip (c : Decls) (hc : c.WF) (scope name mode kind : Nat)
    (flag : InitializationFlag) (maf : Nat) (hmode : mode < 2 ^ c.VariableModeField.size)
    (hkind : kind < 2 ^ c.VariableKindField.size)
    (hmaf : maf < 2 ^ c.MaybeAssignedFlagField.size)
    (haccepted : (Variable.new c scope name mode kind flag maf).status = Status.done) :
    c.VariableModeField.decode 16 (Variable.new c scope name mode kind flag maf).state.bit_field_
      = mode ∧
    c.VariableKindField.decode 16 (Variable.new c scope name mode kind flag maf).state.bit_field_
      = kind ∧
    c.InitializationFlagField.decode 16
      (Variable.new c scope name mode kind flag maf).state.bit_field_ = flag.value ∧
    (Variable.new c scope name mode kind flag maf).state.maybe_assigned c = maf ∧
    (Variable.new_default c scope name mode kind flag).status = Status.done ∧
    (Variable.new_default c scope name mode kind flag).state.maybe_assigned c
      = c.kNotAssigned ∧
    (Variable.new c scope name mode kind flag maf).state.is_used c = false ∧
    c.LocationField.decode 16 (Variable.new c scope name mode kind flag maf).state.bit_field_
      = c.UNALLOCATED ∧
    c.ForceContextAllocationField.decode 16
      (Variable.new c scope name mode kind flag maf).state.bit_field_ = boolToNat false ∧
    c.ForceHoleInitializationField.decode 16
      (Variable.new c scope name mode kind flag maf).state.bit_field_ = boolToNat false ∧
    (Variable.new c scope name mode kind flag maf).state.index_ = -1 ∧
    (Variable.new c scope name mode kind flag maf).state.local_if_not_shadowed_ = none ∧
    (Variable.new c scope name mode kind flag maf).state.scope_ = scope ∧
    (Variable.new c scope name mode kind flag maf).state.name_ = name := by
  obtain ⟨hM, hK, hI, hA, hU, hL, hC, hH⟩ :=
    Variable.new_decode hc scope name mode kind flag maf hmode hkind hmaf
  have hnot : c.kNotAssigned < 2 ^ c.MaybeAssignedFlagField.size :=
    hc.spell_variable.2.2.2.2.2.2.2.2.2.1
  have hdef := (Variable.new_decode hc scope name mode kind flag c.kNotAssigned hmode hkind
    hnot).2.2.2.1
  have hne : ¬ (mode = c.kVar ∧ flag = InitializationFlag.kNeedsInitialization) := by
    intro e
    simp [Variable.new, e] at haccepted
  have fields : ∀ m : Nat, (Variable.new c scope name mode kind flag m).state.index_ = -1 ∧
      (Variable.new c scope name mode kind flag m).state.local_if_not_shadowed_ = none ∧
      (Variable.new c scope name mode kind flag m).state.scope_ = scope ∧
      (Variable.new c scope name mode kind flag m).state.name_ = name := by
    intro m
    simp [Variable.new, hne]
  refine ⟨hM, hK, hI, hA, ?_, hdef, ?_, hL, hC, hH, fields maf⟩
  · simp [Variable.new_default, Variable.new, hne]
  · simp [Variable.is_used, hU]

/-- Witness for C14: a `let`-like variable of the sample declarations, constructed with
`kMaybeAssigned`. -/
theorem C14_constructor_roundtrip_witness :
    sampleDecls.WF ∧
    (Variable.new sampleDecls 4 7 0 1 InitializationFlag.kNeedsInitialization 1).status
      = Status.done ∧
    Variable.maybe_assigned sampleDecls
      (Variable.new sampleDecls 4 7 0 1 InitializationFlag.kNeedsInitialization 1).state = 1 ∧
    Variable.is_used sampleDecls
      (Variable.new sampleDecls 4 7 0 1 InitializationFlag.kNeedsInitialization 1).state
      = false :=
  have w := C14_constructor_roundtrip sampleDecls (by decide) 4 7 0 1
    InitializationFlag.kNeedsInitialization 1 (by decide) (by decide) (by decide) (by decide)
  ⟨by decide, by decide, w.2.2.2.1, w.2.2.2.2.2.2.1⟩

/-- C15: for every name, variable kind and start position, the proxy that
`AstNodeFactory::NewVariableProxy` returns has the kind tag `kVariableProxy`, is unresolved,
is not assigned, is not removed from the unresolved list, has hole-check mode `kElided`, a
null `next_unresolved_` link, the given position, and the given raw name in its slot. -/
theorem C15_new_variable_proxy (c : Decls) (hc : c.WF) (name kind : Nat) (pos : Int) :
    (AstNodeFactory.NewVariableProxy c name kind pos).node_type
      = NodeType.kVariableProxy.value ∧
    Variable.is_resolved c (AstNodeFactory.NewVariableProxy c name kind pos) = false ∧
    (AstNodeFactory.NewVariableProxy c name kind pos).is_assigned c = false ∧
    c.IsRemovedFromUnresolvedField.decode 32
      (AstNodeFactory.NewVariableProxy c name kind pos).bit_field_ = boolToNat false ∧
    c.HoleCheckModeField.decode 32
      (AstNodeFactory.NewVariableProxy c name kind pos).bit_field_ = c.kElided ∧
    (AstNodeFactory.NewVariableProxy c name kind pos).next_unresolved_ = none ∧
    (AstNodeFactory.NewVariableProxy c name kind pos).position_ = pos ∧
    (AstNodeFactory.NewVariableProxy c name kind pos).slot = Slot.raw_name_ name ∧
    ∀ h : Heap, (AstNodeFactory.NewVariableProxy c name kind pos).raw_name c h = some name := by
  obtain ⟨hres, hass, htag⟩ := VariableProxy.new_flags hc name kind pos
  obtain ⟨hrem, hhole⟩ := VariableProxy.new_other_flags hc name kind pos
  exact ⟨htag, hres, hass, hrem, hhole, rfl, rfl, rfl,
    fun h => VariableProxy.raw_name_of_unresolved c _ h hres⟩

/-- Witness for C15: the sample proxy, for the name `7` at position `5`. -/
theorem C15_new_variable_proxy_witness :
    sampleDecls.WF ∧
    (AstNodeFactory.NewVariableProxy sampleDecls 7 0 5).node_type
      = NodeType.kVariableProxy.value ∧
    Variable.is_resolved sampleDecls (AstNodeFactory.NewVariableProxy sampleDecls 7 0 5)
      = false ∧
    (AstNodeFactory.NewVariableProxy sampleDecls 7 0 5).slot = Slot.raw_name_ 7 :=
  have w := C15_new_variable_proxy sampleDecls (by decide) 7 0 5
  ⟨by decide, w.1, w.2.1, w.2.2.2.2.2.2.2.1⟩

/-! ## What binding leaves alone -/

/-- C19: for every proxy `p` and variable `v` (at address `a`) with the proxy's name,
`BindTo(v)` runs to its end and changes in the heap only `v`, and of `v` only the is-used and
maybe-assigned flags: mode, kind, initialisation flag, location, the two force flags, name,
scope, the `local_if_not_shadowed_` and `next_` links, index and initialiser position are as
before.  The is-assigned flag of `p` is unchanged, `v` is used, and `v.maybe_assigned()` is
`kMaybeAssigned` afterwards if and only if it was before or `p.is_assigned()` was true. -/
theorem C19_bind_frame (c : Decls) (hc : c.WF) (p : VariableProxy) (h : Heap) (a : Nat)
    (v : Variable) (hv : h a = some v) (hname : p.raw_name c h = some v.raw_name) :
    ∃ p1 h1 v1, p.BindTo c a h = ⟨Status.done, (p1, h1)⟩ ∧ h1 a = some v1 ∧
      (∀ x, x ≠ a → h1 x = h x) ∧
      c.VariableModeField.decode 16 v1.bit_field_
        = c.VariableModeField.decode 16 v.bit_field_ ∧
      c.VariableKindField.decode 16 v1.bit_field_
        = c.VariableKindField.decode 16 v.bit_field_ ∧
      c.InitializationFlagField.decode 16 v1.bit_field_
        = c.InitializationFlagField.decode 16 v.bit_field_ ∧
      c.LocationField.decode 16 v1.bit_field_ = c.LocationField.decode 16 v.bit_field_ ∧
      c.ForceContextAllocationField.decode 16 v1.bit_field_
        = c.ForceContextAllocationField.decode 16 v.bit_field_ ∧
      c.ForceHoleInitializationField.decode 16 v1.bit_field_
        = c.ForceHoleInitializationField.decode 16 v.bit_field_ ∧
      v1.name_ = v.name_ ∧ v1.scope_ = v.scope_ ∧
      v1.local_if_not_shadowed_ = v.local_if_not_shadowed_ ∧ v1.next_ = v.next_ ∧
      v1.index_ = v.index_ ∧ v1.initializer_position_ = v.initializer_position_ ∧
      p1.is_assigned c = p.is_assigned c ∧
      v1.is_used c = true ∧
      (v1.maybe_assigned c = c.kMaybeAssigned ↔
        (v.maybe_assigned c = c.kMaybeAssigned ∨ p.is_assigned c = true)) := by
  obtain ⟨⟨-, fI, fV, -, fC, fH, fL, fK⟩, ⟨dMI, dMV, -, dMC, dMH, dML, dMK⟩,
    ⟨-, dIU, -, -, -, -⟩, ⟨dVU, -, -, -, -⟩, ⟨dUC, dUH, dUL, dUK⟩, -, -, -, -, -, -, -⟩ :=
    hc.spell_variable
  obtain ⟨p1, h1, hb, hass, hv1, hframe⟩ := VariableProxy.BindTo_bound hc p a h v hv hname
  refine ⟨p1, h1, _, hb, hv1, hframe,
    Variable.bound_frame hc v _ _ fV (BitField.disjoint_symm dVU) dMV,
    Variable.bound_frame hc v _ _ fK dUK dMK,
    Variable.bound_frame hc v _ _ fI (BitField.disjoint_symm dIU) dMI,
    Variable.bound_frame hc v _ _ fL dUL dML,
    Variable.bound_frame hc v _ _ fC dUC dMC,
    Variable.bound_frame hc v _ _ fH dUH dMH, ?_, ?_, ?_, ?_, ?_, ?_, hass, ?_, ?_⟩
  all_goals cases hp : p.is_assigned c
  all_goals first
    | rfl
    | skip
  · exact Variable.is_used_set_is_used hc v
  · exact (Variable.is_used_set_maybe_assigned hc _).trans (Variable.is_used_set_is_used hc v)
  · simp only [Bool.false_eq_true, if_false, or_false]
    rw [Variable.maybe_assigned_set_is_used hc]
  · simp only [if_true, or_true, iff_true]
    exact Variable.maybe_assigned_set_maybe_assigned hc _

/-- Witness for C19: the sample proxy bound to the variable at address `1` of the sample
heap. -/
theorem C19_bind_frame_witness :
    sampleDecls.WF ∧ sampleHeap 1 = some sampleVar ∧
    ∃ p1 h1 v1, sampleProxy.BindTo sampleDecls 1 sampleHeap = ⟨Status.done, (p1, h1)⟩ ∧
      h1 1 = some v1 ∧ v1.name_ = sampleVar.name_ ∧
      sampleDecls.VariableModeField.decode 16 v1.bit_field_
        = sampleDecls.VariableModeField.decode 16 sampleVar.bit_field_ ∧
      (v1.maybe_assigned sampleDecls = sampleDecls.kMaybeAssigned ↔
        (sampleVar.maybe_assigned sampleDecls = sampleDecls.kMaybeAssigned ∨
          sampleProxy.is_assigned sampleDecls = true)) :=
  have ⟨p1, h1, v1, w⟩ := C19_bind_frame sampleDecls (by decide) sampleProxy sampleHeap 1
    sampleVar (by decide) (by decide)
  ⟨by decide, by decide, p1, h1, v1, w.1, w.2.1, w.2.2.2.2.2.2.2.2.2.1, w.2.2.2.1,
    w.2.2.2.2.2.2.2.2.2.2.2.2.2.2.2.2.2⟩

/-! ## The declaration list -/

/-- C13: a freshly constructed declaration has a null `next_` link; and for every sequence of
distinct declarations with null `next_` links, appended in order to the empty list of a scope,
the traversal through the `next_` links, given at least as much fuel as there are
declarations, ends and yields exactly the appended declarations, each once, in append
order. -/
theorem C13_declaration_list_order (m : DeclHeap) (addrs : List Nat) (fuel : Nat)
    (hdistinct : addrs.Nodup) (hfresh : ∀ a ∈ addrs, ∃ d, m a = some d ∧ d.next_ = none)
    (hfuel : addrs.length ≤ fuel) :
    ThreadedList.for_each (ThreadedList.appendAll m addrs).2 fuel
      (ThreadedList.appendAll m addrs).1.head_ = some addrs ∧
    (∀ (pos : Int) (t : NodeType), (Declaration.new pos t).next_ = none) ∧
    (∀ (pos : Int) (is_nested : Bool), (VariableDeclaration.new pos is_nested).next_ = none) ∧
    (∀ x, x ∉ addrs → (ThreadedList.appendAll m addrs).2 x = m x) := by
  obtain ⟨-, -, htrav, hframe, -⟩ := ThreadedList.appendAll_spec m addrs hdistinct hfresh
  obtain ⟨k, rfl⟩ := Nat.exists_eq_add_of_le hfuel
  exact ⟨ThreadedList.for_each_mono _ _ _ _ htrav k, fun _ _ => rfl, fun _ _ => rfl, hframe⟩

/-- Witness for C13: the three declarations of the sample declaration heap appended in the
order `20`, `10`, `30`. -/
theorem C13_declaration_list_order_witness :
    [20, 10, 30].Nodup ∧
    ThreadedList.for_each (ThreadedList.appendAll sampleDeclHeap [20, 10, 30]).2 3
      (ThreadedList.appendAll sampleDeclHeap [20, 10, 30]).1.head_ = some [20, 10, 30] :=
  ⟨by decide,
    (C13_declaration_list_order sampleDeclHeap [20, 10, 30] 3 (by decide)
      (by
        intro a ha
        simp only [List.mem_cons, List.mem_singleton, List.not_mem_nil, or_false] at ha
        rcases ha with rfl | rfl | rfl <;> exact ⟨_, rfl, rfl⟩)
      (by decide)).1⟩
